import Mathlib

/-!
Verification of the pyregistry/aioregistry manifest model and registry
client against its specification.  The Python source files
`pyregistry/models.py` and `aioregistry/client.py` are shallowly embedded
below: pydantic models become structures, JSON documents become a `Json`
AST, and the stateful HTTP flows become explicit functions from a server
oracle to a trace of request events plus an outcome.
-/

/-! ## JSON values

A JSON value as produced by `json.loads` of a manifest document.  The
manifests only use strings, integers, arrays and objects; objects keep
their key order (Python dicts preserve insertion order).
-/

inductive Json where
  | str : String → Json
  | num : Int → Json
  | arr : List Json → Json
  | obj : List (String × Json) → Json

/-- First-match association lookup, modelling Python `dict.get` (a dict
built by `json.loads` has unique keys, so first-match agrees with it). -/
def jLookup (k : String) : List (String × Json) → Option Json
  | [] => none
  | kv :: kvs => if kv.1 = k then some kv.2 else jLookup k kvs

/-! ## Manifest data model (`pyregistry/models.py`)

Each pydantic model becomes a structure.  A field that has a default in
the Python model is wrapped in `Option`: `none` means the field was not
supplied at construction ("unset" in pydantic terms, excluded by
`exclude_unset=True` serialization), `some v` means it was supplied with
value `v`.  Required fields are stored bare.  The `Literal[2]`
field `schema_version` can only ever hold `2`, so it is represented
implicitly (serialization emits `2`, parsing requires `2`).
-/

def OCI_INDEX : String := "application/vnd.oci.image.index.v1+json"
def DOCKER_LIST : String := "application/vnd.docker.distribution.manifest.list.v2+json"
def OCI_MANIFEST : String := "application/vnd.oci.image.manifest.v1+json"
def DOCKER_V2 : String := "application/vnd.docker.distribution.manifest.v2+json"
def DOCKER_V1 : String := "application/vnd.docker.distribution.manifest.v1+json"
def DOCKER_V1_JWS : String := "application/vnd.docker.distribution.manifest.v1+prettyjws"

/-- `ManifestDescriptor`: generic content-addressed descriptor. -/
structure ManifestDescriptor where
  media_type : String
  size : Int
  digest : String
  urls : Option (List String)
  annotations : Option (List (String × String))
deriving DecidableEq

/-- `ManifestListV2S2.ManifestListItem.PlatformData`. -/
structure PlatformData where
  architecture : String
  os : String
  os_version : Option String
  os_features : Option (List String)
  variant : Option String
  features : Option (List String)
deriving DecidableEq

/-- `ManifestListV2S2.ManifestListItem`: a `ManifestDescriptor` (whose
fields are inlined, mirroring pydantic inheritance: base fields first)
plus required `platform`. -/
structure ManifestListItem where
  media_type : String
  size : Int
  digest : String
  urls : Option (List String)
  annotations : Option (List (String × String))
  platform : PlatformData
deriving DecidableEq

/-- `ManifestListV2S2` (manifest list / image index).
`media_type` is `Optional[Literal[...]]` with default `OCI_INDEX`. -/
structure ManifestListV2S2 where
  media_type : Option String
  manifests : List ManifestListItem
  annotations : Option (List (String × String))
deriving DecidableEq

/-- `ManifestV2S2` (single image manifest).
`media_type` is `Literal[...]` with default `OCI_MANIFEST`. -/
structure ManifestV2S2 where
  media_type : Option String
  config : ManifestDescriptor
  layers : List ManifestDescriptor
deriving DecidableEq

/-- `ManifestV1.BlobData`. -/
structure BlobData where
  blob_sum : String
deriving DecidableEq

/-- `ManifestV1.HistoryData`. -/
structure HistoryData where
  v1_compatibility : String
deriving DecidableEq

/-- `ManifestV1` (legacy manifest type).  All fields are required. -/
structure ManifestV1 where
  name : String
  tag : String
  architecture : String
  fsLayers : List BlobData
  history : List HistoryData
  schemaVersion : Int
deriving DecidableEq

/-- The tagged union of all manifest classes registered in
`MANIFEST_TYPE_MAP`. -/
inductive Manifest where
  | list : ManifestListV2S2 → Manifest
  | image : ManifestV2S2 → Manifest
  | v1 : ManifestV1 → Manifest
deriving DecidableEq

/-- `Manifest.get_media_type`: the `media_type` member (pydantic
substitutes the declared default when the field is unset), except for
`ManifestV1` which has no such member and reports its first media type. -/
def Manifest.get_media_type : Manifest → String
  | .list m => m.media_type.getD OCI_INDEX
  | .image m => m.media_type.getD OCI_MANIFEST
  | .v1 _ => DOCKER_V1

/-- `Manifest.get_manifest_dependencies`: overridden only by
`ManifestListV2S2`; every other class inherits the base `[]`. -/
def Manifest.get_manifest_dependencies : Manifest → List String
  | .list m => m.manifests.map (fun it => it.digest)
  | .image _ => []
  | .v1 _ => []

/-- `Manifest.get_blob_dependencies`: overridden only by `ManifestV2S2`
(which appends the config digest after the layer digests); `ManifestV1`
does not override it and therefore inherits the base `[]`. -/
def Manifest.get_blob_dependencies : Manifest → List String
  | .list _ => []
  | .image m => m.layers.map (fun l => l.digest) ++ [m.config.digest]
  | .v1 _ => []

/-! ## Serialization to the JSON AST

`toJson` produces the object that pydantic's
`json(exclude_unset=True, by_alias=True)` would serialize: keys use the
field aliases, appear in declaration order, and unset fields are
omitted. -/

/-- A string-to-string mapping as a JSON object. -/
def strMapJson (l : List (String × String)) : Json :=
  .obj (l.map (fun kv => (kv.1, Json.str kv.2)))

/-- Emit an optional field: nothing when the field is unset. -/
def optField (k : String) : Option Json → List (String × Json)
  | some j => [(k, j)]
  | none => []

def ManifestDescriptor.toJson (d : ManifestDescriptor) : Json :=
  .obj ([("mediaType", Json.str d.media_type),
         ("size", Json.num d.size),
         ("digest", Json.str d.digest)]
    ++ optField "urls" (d.urls.map (fun us => Json.arr (us.map Json.str)))
    ++ optField "annotations" (d.annotations.map strMapJson))

def PlatformData.toJson (p : PlatformData) : Json :=
  .obj ([("architecture", Json.str p.architecture),
         ("os", Json.str p.os)]
    ++ optField "os.version" (p.os_version.map Json.str)
    ++ optField "os.features" (p.os_features.map (fun xs => Json.arr (xs.map Json.str)))
    ++ optField "variant" (p.variant.map Json.str)
    ++ optField "features" (p.features.map (fun xs => Json.arr (xs.map Json.str))))

def ManifestListItem.toJson (it : ManifestListItem) : Json :=
  .obj ([("mediaType", Json.str it.media_type),
         ("size", Json.num it.size),
         ("digest", Json.str it.digest)]
    ++ optField "urls" (it.urls.map (fun us => Json.arr (us.map Json.str)))
    ++ optField "annotations" (it.annotations.map strMapJson)
    ++ [("platform", it.platform.toJson)])

def ManifestListV2S2.toJson (m : ManifestListV2S2) : Json :=
  .obj ([("schemaVersion", Json.num 2)]
    ++ optField "mediaType" (m.media_type.map Json.str)
    ++ [("manifests", Json.arr (m.manifests.map ManifestListItem.toJson))]
    ++ optField "annotations" (m.annotations.map strMapJson))

def ManifestV2S2.toJson (m : ManifestV2S2) : Json :=
  .obj ([("schemaVersion", Json.num 2)]
    ++ optField "mediaType" (m.media_type.map Json.str)
    ++ [("config", m.config.toJson),
        ("layers", Json.arr (m.layers.map ManifestDescriptor.toJson))])

def ManifestV1.toJson (m : ManifestV1) : Json :=
  .obj [("name", Json.str m.name),
        ("tag", Json.str m.tag),
        ("architecture", Json.str m.architecture),
        ("fsLayers", Json.arr (m.fsLayers.map (fun b => Json.obj [("blobSum", Json.str b.blob_sum)]))),
        ("history", Json.arr (m.history.map (fun h => Json.obj [("v1Compatibility", Json.str h.v1_compatibility)]))),
        ("schemaVersion", Json.num m.schemaVersion)]

def Manifest.toJson : Manifest → Json
  | .list m => m.toJson
  | .image m => m.toJson
  | .v1 m => m.toJson

/-! ## Parsing (pydantic validation)

`manifest_cls(**data)` validates the data dict against the model: reads
each field by its alias, requires the required fields, checks `Literal`
constraints (`schemaVersion == 2` and the media-type literals), and
ignores extra keys.  Error messages are collapsed to a single generic
string per model; no claim depends on message text. -/

def asStr : Json → Except String String
  | .str s => .ok s
  | _ => .error "expected string"

def reqStr : Option Json → Except String String
  | some (.str s) => .ok s
  | _ => .error "expected string"

def reqNum : Option Json → Except String Int
  | some (.num n) => .ok n
  | _ => .error "expected int"

def parseStrs : List Json → Except String (List String)
  | [] => .ok []
  | j :: js =>
    match asStr j, parseStrs js with
    | .ok s, .ok ss => .ok (s :: ss)
    | _, _ => .error "expected string list"

def optStrs : Option Json → Except String (Option (List String))
  | none => .ok none
  | some (.arr js) => (parseStrs js).map some
  | some _ => .error "expected string list"

def parseStrMap : List (String × Json) → Except String (List (String × String))
  | [] => .ok []
  | kv :: kvs =>
    match asStr kv.2, parseStrMap kvs with
    | .ok s, .ok ss => .ok ((kv.1, s) :: ss)
    | _, _ => .error "expected string map"

def optStrMap : Option Json → Except String (Option (List (String × String)))
  | none => .ok none
  | some (.obj kvs) => (parseStrMap kvs).map some
  | some _ => .error "expected string map"

def optStr : Option Json → Except String (Option String)
  | none => .ok none
  | some (.str s) => .ok (some s)
  | some _ => .error "expected string"

/-- Validate `schemaVersion: Literal[2]`. -/
def reqSchemaVersion2 (o : Option Json) : Except String Unit :=
  match o with
  | some (.num 2) => .ok ()
  | _ => .error "schemaVersion must be 2"

/-- Validate an optional media-type field against its `Literal` values. -/
def optMediaTypeIn (allowed : List String) (o : Option Json) :
    Except String (Option String) :=
  match o with
  | none => .ok none
  | some (.str s) => if s ∈ allowed then .ok (some s) else .error "bad mediaType"
  | some _ => .error "bad mediaType"

def parseDescriptor : Json → Except String ManifestDescriptor
  | .obj kvs =>
    (match reqStr (jLookup "mediaType" kvs), reqNum (jLookup "size" kvs),
           reqStr (jLookup "digest" kvs), optStrs (jLookup "urls" kvs),
           optStrMap (jLookup "annotations" kvs) with
     | .ok mt, .ok sz, .ok dg, .ok us, .ok ann => .ok ⟨mt, sz, dg, us, ann⟩
     | _, _, _, _, _ => .error "invalid descriptor")
  | _ => .error "invalid descriptor"

def parsePlatform : Json → Except String PlatformData
  | .obj kvs =>
    (match reqStr (jLookup "architecture" kvs), reqStr (jLookup "os" kvs),
           optStr (jLookup "os.version" kvs), optStrs (jLookup "os.features" kvs),
           optStr (jLookup "variant" kvs), optStrs (jLookup "features" kvs) with
     | .ok a, .ok o, .ok ov, .ok of_, .ok v, .ok f => .ok ⟨a, o, ov, of_, v, f⟩
     | _, _, _, _, _, _ => .error "invalid platform")
  | _ => .error "invalid platform"

def parseListItem : Json → Except String ManifestListItem
  | .obj kvs =>
    (match reqStr (jLookup "mediaType" kvs), reqNum (jLookup "size" kvs),
           reqStr (jLookup "digest" kvs), optStrs (jLookup "urls" kvs),
           optStrMap (jLookup "annotations" kvs),
           (match jLookup "platform" kvs with
            | some j => parsePlatform j
            | none => .error "platform required") with
     | .ok mt, .ok sz, .ok dg, .ok us, .ok ann, .ok p => .ok ⟨mt, sz, dg, us, ann, p⟩
     | _, _, _, _, _, _ => .error "invalid manifest list item")
  | _ => .error "invalid manifest list item"

def parseListItems : List Json → Except String (List ManifestListItem)
  | [] => .ok []
  | j :: js =>
    match parseListItem j, parseListItems js with
    | .ok it, .ok its => .ok (it :: its)
    | _, _ => .error "invalid manifests"

def parseDescriptors : List Json → Except String (List ManifestDescriptor)
  | [] => .ok []
  | j :: js =>
    match parseDescriptor j, parseDescriptors js with
    | .ok d, .ok ds => .ok (d :: ds)
    | _, _ => .error "invalid layers"

def parseManifestList : Json → Except String ManifestListV2S2
  | .obj kvs =>
    (match reqSchemaVersion2 (jLookup "schemaVersion" kvs),
           optMediaTypeIn [OCI_INDEX, DOCKER_LIST] (jLookup "mediaType" kvs),
           (match jLookup "manifests" kvs with
            | some (.arr js) => parseListItems js
            | _ => .error "manifests required") with
     | .ok _, .ok mt, .ok ms =>
       (match optStrMap (jLookup "annotations" kvs) with
        | .ok ann => .ok ⟨mt, ms, ann⟩
        | .error e => .error e)
     | _, _, _ => .error "invalid manifest list")
  | _ => .error "invalid manifest list"

def parseManifestV2S2 : Json → Except String ManifestV2S2
  | .obj kvs =>
    (match reqSchemaVersion2 (jLookup "schemaVersion" kvs),
           optMediaTypeIn [OCI_MANIFEST, DOCKER_V2] (jLookup "mediaType" kvs),
           (match jLookup "config" kvs with
            | some j => parseDescriptor j
            | none => .error "config required"),
           (match jLookup "layers" kvs with
            | some (.arr js) => parseDescriptors js
            | _ => .error "layers required") with
     | .ok _, .ok mt, .ok c, .ok ls => .ok ⟨mt, c, ls⟩
     | _, _, _, _ => .error "invalid image manifest")
  | _ => .error "invalid image manifest"

def parseBlobData : List Json → Except String (List BlobData)
  | [] => .ok []
  | .obj kvs :: js =>
    (match reqStr (jLookup "blobSum" kvs), parseBlobData js with
     | .ok s, .ok bs => .ok (⟨s⟩ :: bs)
     | _, _ => .error "invalid fsLayers")
  | _ :: _ => .error "invalid fsLayers"

def parseHistory : List Json → Except String (List HistoryData)
  | [] => .ok []
  | .obj kvs :: js =>
    (match reqStr (jLookup "v1Compatibility" kvs), parseHistory js with
     | .ok s, .ok hs => .ok (⟨s⟩ :: hs)
     | _, _ => .error "invalid history")
  | _ :: _ => .error "invalid history"

def parseManifestV1 : Json → Except String ManifestV1
  | .obj kvs =>
    (match reqStr (jLookup "name" kvs), reqStr (jLookup "tag" kvs),
           reqStr (jLookup "architecture" kvs),
           (match jLookup "fsLayers" kvs with
            | some (.arr js) => parseBlobData js
            | _ => .error "fsLayers required"),
           (match jLookup "history" kvs with
            | some (.arr js) => parseHistory js
            | _ => .error "history required"),
           reqNum (jLookup "schemaVersion" kvs) with
     | .ok n, .ok t, .ok a, .ok fl, .ok h, .ok sv => .ok ⟨n, t, a, fl, h, sv⟩
     | _, _, _, _, _, _ => .error "invalid v1 manifest")
  | _ => .error "invalid v1 manifest"

/-- The three manifest classes, used to model `MANIFEST_TYPE_MAP`. -/
inductive MClass where
  | listC
  | imageC
  | v1C
deriving DecidableEq

/-- `MANIFEST_TYPE_MAP`: media type string to registered manifest class. -/
def MANIFEST_TYPE_MAP (mt : String) : Option MClass :=
  if mt = OCI_INDEX ∨ mt = DOCKER_LIST then some .listC
  else if mt = OCI_MANIFEST ∨ mt = DOCKER_V2 then some .imageC
  else if mt = DOCKER_V1 ∨ mt = DOCKER_V1_JWS then some .v1C
  else none

/-- `Manifest.parse`: determine the media type (from the hint, or from
the document itself), select the manifest class, and validate. -/
def Manifest.parse (data : Json) (media_type : Option String) :
    Except String Manifest :=
  match (match media_type with
         | some mt => Except.ok mt
         | none =>
           match data with
           | .obj kvs =>
             (match jLookup "mediaType" kvs with
              | some (.str mt) => .ok mt
              | some _ => .error "Unknown media type"
              | none => .error "data has no media type and none given")
           | _ => .error "data is not a dict") with
  | .error e => .error e
  | .ok mt =>
    match MANIFEST_TYPE_MAP mt with
    | some .listC =>
      (match parseManifestList data with
       | .ok m => .ok (.list m)
       | .error e => .error e)
    | some .imageC =>
      (match parseManifestV2S2 data with
       | .ok m => .ok (.image m)
       | .error e => .error e)
    | some .v1C =>
      (match parseManifestV1 data with
       | .ok m => .ok (.v1 m)
       | .error e => .error e)
    | none => .error "Unknown media type"

/-! ## Canonical serialization (`Manifest.canonical`)

For media types starting with `application/vnd.docker.` the canonical
form is `json(indent=3, separators=(",", ": "), ensure_ascii=False,
by_alias=True, exclude_unset=True)`; otherwise it is
`json(sort_keys=True, separators=(",", ":"), ...)`.  `sort_keys=True`
sorts object keys recursively at serialization time; we model this by a
recursive key-sorting pass (`sortJson`) followed by an order-preserving
compact dump.  Key comparison is Python string comparison:
lexicographic on code points. -/

/-- Lexicographic code-point comparison of character lists (`a <= b`). -/
def strListLe : List Char → List Char → Bool
  | [], _ => true
  | _ :: _, [] => false
  | a :: as, b :: bs =>
    if a.toNat < b.toNat then true
    else if b.toNat < a.toNat then false
    else strListLe as bs

/-- Python string `<=` on code points. -/
def keyLe (a b : String) : Bool := strListLe a.data b.data

/-- Insert into a list sorted by a string key (stable insertion sort,
matching Python `sorted`). -/
def insertByKey {α : Type} (key : α → String) (p : α) :
    List α → List α
  | [] => [p]
  | q :: qs => if keyLe (key p) (key q) then p :: q :: qs else q :: insertByKey key p qs

def sortByKey {α : Type} (key : α → String) : List α → List α
  | [] => []
  | p :: ps => insertByKey key p (sortByKey key ps)

mutual
def sortJson : Json → Json
  | .str s => .str s
  | .num n => .num n
  | .arr xs => .arr (sortJsonList xs)
  | .obj kvs => .obj (sortByKey Prod.fst (sortJsonPairs kvs))
def sortJsonList : List Json → List Json
  | [] => []
  | x :: xs => sortJson x :: sortJsonList xs
def sortJsonPairs : List (String × Json) → List (String × Json)
  | [] => []
  | kv :: kvs => (kv.1, sortJson kv.2) :: sortJsonPairs kvs
end

/-- JSON string escaping with `ensure_ascii=False`: escape the quote,
the backslash and control characters; everything else is kept
literally. -/
def jsonEscapeChar (c : Char) : String :=
  if c = '"' then "\\\""
  else if c = '\\' then "\\\\"
  else if c = '\n' then "\\n"
  else if c = '\r' then "\\r"
  else if c = '\t' then "\\t"
  else if c = '\x08' then "\\b"
  else if c = '\x0c' then "\\f"
  else if c.toNat < 32 then
    "\\u00" ++ String.mk [
      (if c.toNat / 16 < 10 then Char.ofNat (48 + c.toNat / 16) else Char.ofNat (87 + c.toNat / 16)),
      (if c.toNat % 16 < 10 then Char.ofNat (48 + c.toNat % 16) else Char.ofNat (87 + c.toNat % 16))]
  else String.mk [c]

def quoteStr (s : String) : String :=
  "\"" ++ String.join (s.data.map jsonEscapeChar) ++ "\""

/-- `indent * level` spaces for Python `json.dumps(indent=3)`. -/
def pad (level : Nat) : String := String.mk (List.replicate (3 * level) ' ')

mutual
/-- Python `json.dumps(..., separators=(",", ":"))` (compact form,
insertion order preserved). -/
def dumpCompact : Json → String
  | .str s => quoteStr s
  | .num n => toString n
  | .arr xs => "[" ++ dumpCompactList xs ++ "]"
  | .obj kvs => "\x7b" ++ dumpCompactPairs kvs ++ "\x7d"
def dumpCompactList : List Json → String
  | [] => ""
  | [x] => dumpCompact x
  | x :: xs => dumpCompact x ++ "," ++ dumpCompactList xs
def dumpCompactPairs : List (String × Json) → String
  | [] => ""
  | [kv] => quoteStr kv.1 ++ ":" ++ dumpCompact kv.2
  | kv :: kvs => quoteStr kv.1 ++ ":" ++ dumpCompact kv.2 ++ "," ++ dumpCompactPairs kvs
end

mutual
/-- Python `json.dumps(..., indent=3, separators=(",", ": "))`. -/
def dumpIndent (level : Nat) : Json → String
  | .str s => quoteStr s
  | .num n => toString n
  | .arr [] => "[]"
  | .arr (x :: xs) =>
    "[\n" ++ pad (level + 1) ++ dumpIndentList (level + 1) (x :: xs)
      ++ "\n" ++ pad level ++ "]"
  | .obj [] => "\x7b\x7d"
  | .obj (kv :: kvs) =>
    "\x7b\n" ++ pad (level + 1) ++ dumpIndentPairs (level + 1) (kv :: kvs)
      ++ "\n" ++ pad level ++ "\x7d"
def dumpIndentList (level : Nat) : List Json → String
  | [] => ""
  | [x] => dumpIndent level x
  | x :: xs => dumpIndent level x ++ ",\n" ++ pad level ++ dumpIndentList level xs
def dumpIndentPairs (level : Nat) : List (String × Json) → String
  | [] => ""
  | [kv] => quoteStr kv.1 ++ ": " ++ dumpIndent level kv.2
  | kv :: kvs =>
    quoteStr kv.1 ++ ": " ++ dumpIndent level kv.2 ++ ",\n" ++ pad level
      ++ dumpIndentPairs level kvs
end

/-- Python `str.startswith`, over the character data. -/
def pyStartsWith (s p : String) : Bool := s.data.take p.data.length == p.data

/-- Whether the canonical form uses the Docker style (3-space indent,
declaration order) rather than the sorted compact style. -/
def Manifest.dockerStyle (m : Manifest) : Bool :=
  pyStartsWith m.get_media_type "application/vnd.docker."

/-- The JSON value whose serialization is the canonical byte sequence
(i.e. `json.loads` of the canonical string): declaration order for the
Docker style, recursively sorted keys otherwise. -/
def Manifest.canonicalAst (m : Manifest) : Json :=
  if m.dockerStyle then m.toJson else sortJson m.toJson

/-- `Manifest.canonical`: the canonical JSON string. -/
def Manifest.canonical (m : Manifest) : String :=
  if m.dockerStyle then dumpIndent 0 m.toJson
  else dumpCompact (sortJson m.toJson)

/-! ## SHA-256 (`hashlib.sha256`) and `Manifest.digest`

A direct Nat-based implementation of SHA-256 over byte lists, plus the
UTF-8 encoding of the canonical string. -/

def w32 (x : Nat) : Nat := x % 4294967296

def rotr (n x : Nat) : Nat := (x / 2 ^ n) + (x % 2 ^ n) * 2 ^ (32 - n)

def shaCh (x y z : Nat) : Nat := (x &&& y) ^^^ ((4294967295 - x) &&& z)

def shaMaj (x y z : Nat) : Nat := (x &&& y) ^^^ (x &&& z) ^^^ (y &&& z)

def bigSigma0 (x : Nat) : Nat := rotr 2 x ^^^ rotr 13 x ^^^ rotr 22 x

def bigSigma1 (x : Nat) : Nat := rotr 6 x ^^^ rotr 11 x ^^^ rotr 25 x

def smallSigma0 (x : Nat) : Nat := rotr 7 x ^^^ rotr 18 x ^^^ (x / 8)

def smallSigma1 (x : Nat) : Nat := rotr 17 x ^^^ rotr 19 x ^^^ (x / 1024)

def shaK : List Nat :=
  [1116352408, 1899447441, 3049323471, 3921009573,
   961987163, 1508970993, 2453635748, 2870763221,
   3624381080, 310598401, 607225278, 1426881987,
   1925078388, 2162078206, 2614888103, 3248222580,
   3835390401, 4022224774, 264347078, 604807628,
   770255983, 1249150122, 1555081692, 1996064986,
   2554220882, 2821834349, 2952996808, 3210313671,
   3336571891, 3584528711, 113926993, 338241895,
   666307205, 773529912, 1294757372, 1396182291,
   1695183700, 1986661051, 2177026350, 2456956037,
   2730485921, 2820302411, 3259730800, 3345764771,
   3516065817, 3600352804, 4094571909, 275423344,
   430227734, 506948616, 659060556, 883997877,
   958139571, 1322822218, 1537002063, 1747873779,
   1955562222, 2024104815, 2227730452, 2361852424,
   2428436474, 2756734187, 3204031479, 3329325298]

def shaH0 : List Nat :=
  [1779033703, 3144134277, 1013904242, 2773480762,
   1359893119, 2600822924, 528734635, 1541459225]

def getW (l : List Nat) (i : Nat) : Nat := l.getD i 0

/-- Big-endian 8-byte encoding of a Nat. -/
def be64 (n : Nat) : List Nat :=
  [n / 2 ^ 56 % 256, n / 2 ^ 48 % 256, n / 2 ^ 40 % 256, n / 2 ^ 32 % 256,
   n / 2 ^ 24 % 256, n / 2 ^ 16 % 256, n / 2 ^ 8 % 256, n % 256]

/-- SHA-256 padding: append `0x80`, zeros to 56 mod 64, and the
big-endian 64-bit bit length. -/
def shaPad (msg : List Nat) : List Nat :=
  msg ++ [128] ++ List.replicate ((119 - msg.length % 64) % 64) 0
    ++ be64 (8 * msg.length)

/-- Split a byte list into 64-byte blocks. -/
def toBlocks (bs : List Nat) : List (List Nat) :=
  if h : bs = [] then []
  else bs.take 64 :: toBlocks (bs.drop 64)
termination_by bs.length
decreasing_by
  simp only [List.length_drop]
  have : bs.length ≠ 0 := fun hz => h (List.length_eq_zero.mp hz)
  omega

/-- The 16 initial 32-bit words of a block (big endian). -/
def blockWords (b : List Nat) : List Nat :=
  (List.range 16).map fun i =>
    getW b (4 * i) * 16777216 + getW b (4 * i + 1) * 65536
      + getW b (4 * i + 2) * 256 + getW b (4 * i + 3)

/-- Extend the message schedule by `n` more words. -/
def extendSchedule : Nat → List Nat → List Nat
  | 0, ws => ws
  | n + 1, ws =>
    extendSchedule n (ws ++ [w32 (smallSigma1 (getW ws (ws.length - 2))
      + getW ws (ws.length - 7) + smallSigma0 (getW ws (ws.length - 15))
      + getW ws (ws.length - 16))])

/-- One round of the SHA-256 compression function. -/
def shaRound (st : List Nat) (kw : Nat × Nat) : List Nat :=
  let t1 := w32 (getW st 7 + bigSigma1 (getW st 4)
    + shaCh (getW st 4) (getW st 5) (getW st 6) + kw.1 + kw.2)
  let t2 := w32 (bigSigma0 (getW st 0) + shaMaj (getW st 0) (getW st 1) (getW st 2))
  [w32 (t1 + t2), getW st 0, getW st 1, getW st 2,
   w32 (getW st 3 + t1), getW st 4, getW st 5, getW st 6]

def compressBlock (h : List Nat) (b : List Nat) : List Nat :=
  let ws := extendSchedule 48 (blockWords b)
  let st := (shaK.zip ws).foldl shaRound h
  (h.zip st).map fun p => w32 (p.1 + p.2)

/-- SHA-256 of a byte list, as a 32-byte list. -/
def sha256 (msg : List Nat) : List Nat :=
  let final := (toBlocks (shaPad msg)).foldl compressBlock shaH0
  (final.map fun w => [w / 16777216 % 256, w / 65536 % 256, w / 256 % 256, w % 256]).flatten

def hexChar (n : Nat) : Char :=
  if n < 10 then Char.ofNat (48 + n) else Char.ofNat (87 + n)

/-- Lowercase hex digest of a byte list (`hexdigest`). -/
def bytesToHex (bs : List Nat) : String :=
  String.mk ((bs.map fun b => [hexChar (b / 16), hexChar (b % 16)]).flatten)

/-- UTF-8 encoding of one character. -/
def utf8Char (c : Char) : List Nat :=
  let n := c.toNat
  if n < 128 then [n]
  else if n < 2048 then [192 + n / 64, 128 + n % 64]
  else if n < 65536 then [224 + n / 4096, 128 + n / 64 % 64, 128 + n % 64]
  else [240 + n / 262144, 128 + n / 4096 % 64, 128 + n / 64 % 64, 128 + n % 64]

/-- UTF-8 encoding of a string (`str.encode("utf-8")`). -/
def utf8Bytes (s : String) : List Nat := (s.data.map utf8Char).flatten

/-- `Manifest.digest`: `"sha256:" + sha256(canonical.encode("utf-8")).hexdigest()`.
(The Python property memoizes the result; memoization of a pure value is
dropped.) -/
def Manifest.digest (m : Manifest) : String :=
  "sha256:" ++ bytesToHex (sha256 (utf8Bytes m.canonical))

/-! ## Registry references (`Registry*Ref` in `pyregistry/models.py`)

`RegistryBlobRef` and its subclass `RegistryManifestRef` differ only in
`OBJECT_TYPE`; they are modelled by one structure carrying the object
type.  The optional registry only selects which host a request goes to
and never changes the request paths the claims are about, so it is not
carried. -/

inductive ObjectType where
  | blobs
  | manifests
deriving DecidableEq

def ObjectType.str : ObjectType → String
  | .blobs => "blobs"
  | .manifests => "manifests"

structure RRef where
  objectType : ObjectType
  repo : List String
  ref : String
deriving DecidableEq

/-- `RegistryBlobRef.url`: `v2/<repo>/<OBJECT_TYPE>/<ref>`. -/
def refUrl (r : RRef) : String :=
  "v2/" ++ String.intercalate "/" r.repo ++ "/" ++ r.objectType.str ++ "/" ++ r.ref

/-- `RegistryBlobRef.upload_url`: `v2/<repo>/<OBJECT_TYPE>/uploads/<uuid>`. -/
def uploadUrlOf (r : RRef) (uuid : String) : String :=
  "v2/" ++ String.intercalate "/" r.repo ++ "/" ++ r.objectType.str ++ "/uploads/" ++ uuid

def hexLowerDigit (c : Char) : Bool :=
  (48 ≤ c.toNat && c.toNat ≤ 57) || (97 ≤ c.toNat && c.toNat ≤ 102)

/-- `RegistryBlobRef.is_digest_ref`: full match of `sha256:[0-9a-f]{64}`. -/
def isDigestRef (r : String) : Bool :=
  (r.data.take 7 == "sha256:".data)
    && ((r.data.drop 7).length == 64)
    && (r.data.drop 7).all hexLowerDigit

/-! ## Authenticated transport (`AsyncRegistryClient._request`)

The request loop is modelled as a function from the client's cached
token state and a server oracle to the list of performed HTTP events,
the outcome the caller observes, and the new token cache entry.

Challenge parsing: the code parses the `WWW-Authenticate` header with
`split_quote` (from `aioregistry/parsing.py`, which is not part of the
sources under verification).  The header is therefore modelled at the
parsed level: a response either carries no `Bearer ` challenge, or a
parsed challenge with an optional `realm` and the remaining key/value
parameters.  A missing `realm` makes `auth_args.pop("realm")` raise a
`KeyError`, which escapes `_request`. -/

inductive WwwAuth where
  | notBearer
  | bearer (realm : Option String) (params : List (String × String))
deriving DecidableEq

structure HResponse where
  status : Nat
  wwwAuth : WwwAuth
deriving DecidableEq

/-- Server behaviour for one `_request` call: the response to the first
attempt, the token endpoint's status and token, and the response to the
retried attempt. -/
structure AuthServer where
  resp1 : HResponse
  tokenStatus : Nat
  token : String
  resp2 : HResponse
deriving DecidableEq

inductive AuthHeader where
  | bearer (t : String)
  | basic
  | noAuth
deriving DecidableEq

inductive ReqEvent where
  | attempt (auth : AuthHeader)
  | tokenFetch (realm : String) (params : List (String × String))
deriving DecidableEq

inductive ReqOutcome where
  | success (r : HResponse)
  | failure (msg : String)
deriving DecidableEq

def ReqOutcome.isFailure : ReqOutcome → Bool
  | .failure _ => true
  | _ => false

def ReqEvent.isAttempt : ReqEvent → Bool
  | .attempt _ => true
  | _ => false

def ReqEvent.isTokenFetch : ReqEvent → Bool
  | .tokenFetch _ _ => true
  | _ => false

/-- The authentication the first attempt carries: a cached bearer token
if one exists for the auth key, otherwise basic credentials if any. -/
def initialAuth (cached : Option String) (basicCreds : Bool) : AuthHeader :=
  match cached with
  | some t => .bearer t
  | none => if basicCreds then .basic else .noAuth

/-- `AsyncRegistryClient._request`: attempt the request; on any status
other than a first-attempt 401 hand the response to the caller.  On a
first-attempt 401, require a `Bearer` challenge, fetch a token from the
realm, cache it, and retry exactly once; the retried response is handed
to the caller whatever its status is. -/
def requestModel (cached : Option String) (basicCreds : Bool) (srv : AuthServer) :
    List ReqEvent × ReqOutcome × Option String :=
  let a1 := initialAuth cached basicCreds
  if srv.resp1.status ≠ 401 then
    ([.attempt a1], .success srv.resp1, cached)
  else
    match srv.resp1.wwwAuth with
    | .notBearer =>
      ([.attempt a1], .failure "Failed to make request, unauthorized", cached)
    | .bearer none _ =>
      ([.attempt a1], .failure "KeyError: realm", cached)
    | .bearer (some realm) params =>
      if srv.tokenStatus ≠ 200 then
        ([.attempt a1, .tokenFetch realm params],
         .failure "Failed to generate authentication token", cached)
      else
        ([.attempt a1, .tokenFetch realm params, .attempt (.bearer srv.token)],
         .success srv.resp2, some srv.token)

/-! ## Content streaming (`AsyncRegistryClient.ref_content_stream`)

The rechunking loop: the response body arrives as a sequence of chunks
(`response.content.iter_chunked(chunk_size)` guarantees each is at most
`chunk_size` bytes and never empty), and the loop regroups them into
chunks of exactly `chunk_size` bytes except possibly a final shorter
one.  Bytes are `Nat`s. -/

def rechunkLoop (chunkSize : Nat) :
    List (List Nat) → List (List Nat) → Nat → List (List Nat)
  | [], cur, _ => if cur.isEmpty then [] else [cur.flatten]
  | c :: cs, cur, curSize =>
    let need := chunkSize - curSize
    let newSize := curSize + c.length
    if need ≤ c.length then
      (cur.flatten ++ c.take need) ::
        rechunkLoop chunkSize cs (if need < c.length then [c.drop need] else [])
          (newSize - chunkSize)
    else
      rechunkLoop chunkSize cs (cur ++ [c]) newSize

/-- The chunk sequence `ref_content_stream` yields for a given input
chunk sequence. -/
def rechunk (chunkSize : Nat) (input : List (List Nat)) : List (List Nat) :=
  rechunkLoop chunkSize input [] 0

/-! ## Copy engine (`AsyncRegistryClient.copy_refs`)

`copy_refs` is modelled as a function from a server/child oracle to the
list of performed I/O events and the returned value or raised error.
Child copies (the recursive `copy_refs` calls issued through
`asyncio.gather`) are abstracted by an oracle giving each child's
result; a successful child contributes a completion event.  `gather`
with the default `return_exceptions=False` re-raises the first child
exception, in which case the parent manifest PUT is never issued. -/

inductive CopyErr where
  | valueError (msg : String)
  | registryError (msg : String)
deriving DecidableEq

inductive CopyEvent where
  | headRequest (url : String)
  | manifestGet (url : String)
  | childCopy (t : ObjectType) (digest : String)
  | manifestPut (url : String) (body : String) (contentType : String)
  | uploadPost (url : String)
  | uploadPatch (url : String) (chunk : List Nat)
  | uploadPut (url : String)
deriving DecidableEq

/-- `AsyncRegistryClient.ref_exists`: HEAD the ref; 200 is true, 401 and
404 are false, anything else raises. -/
def ref_exists (status : Nat) : Except CopyErr Bool :=
  if status = 200 then .ok true
  else if status = 401 ∨ status = 404 then .ok false
  else .error (.registryError "Unexpected response from registry")

/-- Oracle describing every external response one `copy_refs` call can
observe. -/
structure CopyEnv where
  dstHeadStatus : Nat
  manifest : Except CopyErr Manifest
  childResult : ObjectType → String → Except CopyErr Bool
  manifestPutStatus : Nat
  uploadPostStatus : Nat
  uploadPostLocation : String
  blobChunks : List (List Nat)
  patchResp : Nat → Nat × String
  uploadPutStatus : Nat

/-- The child copies spawned for a downloaded manifest, in `gather`
argument order: manifest dependencies first, then blob dependencies. -/
def manifestDeps (man : Manifest) : List (ObjectType × String) :=
  man.get_manifest_dependencies.map (fun d => (ObjectType.manifests, d))
    ++ man.get_blob_dependencies.map (fun d => (ObjectType.blobs, d))

/-- The first error among the child copy results, if any (the exception
`asyncio.gather` re-raises). -/
def firstChildError (env : CopyEnv) : List (ObjectType × String) → Option CopyErr
  | [] => none
  | td :: tds =>
    match env.childResult td.1 td.2 with
    | .error e => some e
    | .ok _ => firstChildError env tds

/-- The PATCH loop of the blob upload: each chunk is PATCHed to the
current upload URL and the URL is replaced by the response `Location`;
`patchResp i` is the status and `Location` of the response to the `i`-th
PATCH.  Returns the performed events and the final upload URL. -/
def uploadChunks (patchResp : Nat → Nat × String) :
    Nat → String → List (List Nat) → List CopyEvent × Except CopyErr String
  | _, loc, [] => ([], .ok loc)
  | i, loc, c :: cs =>
    let st := (patchResp i).1
    if st / 100 == 2 then
      let rest := uploadChunks patchResp (i + 1) (patchResp i).2 cs
      (.uploadPatch loc c :: rest.1, rest.2)
    else
      ([.uploadPatch loc c],
       .error (.registryError "Unexpected response writing blob data"))

/-- The manifest and blob paths of `copy_refs`, entered after the
precondition checks and the existence short-circuit; `pre` is the trace
accumulated so far. -/
def copyRefsMain (env : CopyEnv) (src dst : RRef) (pre : List CopyEvent) :
    List CopyEvent × Except CopyErr Bool :=
  match src.objectType with
  | .manifests =>
    let pre := pre ++ [CopyEvent.manifestGet (refUrl src)]
    match env.manifest with
    | .error e => (pre, .error e)
    | .ok man =>
      let deps := manifestDeps man
      let childEvents :=
        (deps.filter (fun td => (env.childResult td.1 td.2).isOk)).map
          (fun td => CopyEvent.childCopy td.1 td.2)
      match firstChildError env deps with
      | some e => (pre ++ childEvents, .error e)
      | none =>
        let putEv := CopyEvent.manifestPut (refUrl dst) man.canonical man.get_media_type
        if env.manifestPutStatus / 100 == 2 then
          (pre ++ childEvents ++ [putEv], .ok true)
        else
          (pre ++ childEvents ++ [putEv],
           .error (.registryError "Failed to copy manifest"))
  | .blobs =>
    let postEv := CopyEvent.uploadPost (uploadUrlOf dst "")
    if env.uploadPostStatus / 100 == 2 then
      let up := uploadChunks env.patchResp 0 env.uploadPostLocation env.blobChunks
      match up.2 with
      | .error e => (pre ++ postEv :: up.1, .error e)
      | .ok loc =>
        let putEv := CopyEvent.uploadPut (loc ++ "&digest=" ++ src.ref)
        if env.uploadPutStatus / 100 == 2 then
          (pre ++ postEv :: up.1 ++ [putEv], .ok true)
        else
          (pre ++ postEv :: up.1 ++ [putEv],
           .error (.registryError "Unexpected response ending blob copy"))
    else
      (pre ++ [postEv],
       .error (.registryError "Unexpected response attempting to start blob copy"))

/-- `AsyncRegistryClient.copy_refs`: precondition checks, existence
short-circuit for digest-ref sources, then the manifest or blob path. -/
def copyRefs (env : CopyEnv) (src dst : RRef) :
    List CopyEvent × Except CopyErr Bool :=
  if src.objectType ≠ dst.objectType then
    ([], .error (.valueError "Cannot copy ref to different object type"))
  else if isDigestRef dst.ref && src.ref != dst.ref then
    ([], .error (.valueError "Cannot copy to a content address that does not match the source"))
  else if isDigestRef src.ref then
    match ref_exists env.dstHeadStatus with
    | .error e => ([CopyEvent.headRequest (refUrl dst)], .error e)
    | .ok true => ([CopyEvent.headRequest (refUrl dst)], .ok false)
    | .ok false => copyRefsMain env src dst [CopyEvent.headRequest (refUrl dst)]
  else
    copyRefsMain env src dst []

/-! ## Shared concrete inputs for witnesses and counterexamples -/

/-- A well-formed sha256 digest ref string. -/
def digA : String := "sha256:" ++ String.mk (List.replicate 64 'a')

/-- A trivial copy oracle. -/
def envTriv : CopyEnv :=
  ⟨404, .error (.registryError "unused"), fun _ _ => .ok true, 201, 202,
   "https://up.example/session/42", [], fun _ => (202, "https://up.example/session/43"), 201⟩

/-! ## C1 -/

def v1C1 : ManifestV1 :=
  ⟨"library/alpine", "latest", "amd64",
   [⟨"sha256:deadbeef"⟩, ⟨"sha256:cafebabe"⟩],
   [⟨"h1"⟩, ⟨"h2"⟩], 1⟩

/-- C1: the claim (and the spec) say `get_blob_dependencies` of a legacy
`ManifestV1` returns the `blobSum` digests of its `fsLayers`.  The code
never overrides `get_blob_dependencies` in `ManifestV1`, so it inherits
the base implementation and returns `[]`: on a V1 manifest with two
`fsLayers` the blob dependency list is empty and differs from the
`blobSum` list.  (The other variants do behave as claimed up to order:
layers-then-config for image manifests and empty for lists.) -/
theorem c1_v1_blob_dependencies_dropped :
    (Manifest.v1 v1C1).get_blob_dependencies = []
      ∧ v1C1.fsLayers.map (fun b => b.blob_sum) = ["sha256:deadbeef", "sha256:cafebabe"]
      ∧ (Manifest.v1 v1C1).get_blob_dependencies
          ≠ v1C1.fsLayers.map (fun b => b.blob_sum) := by
  refine ⟨rfl, rfl, by decide⟩

/-! ## C6 -/

def cfgC6 : ManifestDescriptor :=
  ⟨"application/vnd.oci.image.config.v1+json", 7023, "sha256:cfg", none, none⟩

def layC6 : ManifestDescriptor :=
  ⟨"application/vnd.oci.image.layer.v1.tar+gzip", 32654, "sha256:layer1", none, none⟩

def mC6 : ManifestV2S2 := ⟨none, cfgC6, [layC6]⟩

/-- C6 counterexample: the claim says the blob dependencies of an image
manifest are the config digest followed by the layer digests (document
order).  On a manifest whose config digest is `sha256:cfg` and single
layer digest is `sha256:layer1` the code returns
`["sha256:layer1", "sha256:cfg"]`, not `["sha256:cfg", "sha256:layer1"]`. -/
theorem c6_counterexample :
    (Manifest.image mC6).get_blob_dependencies = ["sha256:layer1", "sha256:cfg"]
      ∧ (Manifest.image mC6).get_blob_dependencies
          ≠ ["sha256:cfg", "sha256:layer1"] := by
  refine ⟨rfl, by decide⟩

/-- C6 amended: `get_blob_dependencies` on an image manifest returns the
layer digests in their declared order followed by the config digest
(config last, not first). -/
theorem c6_amended_layers_then_config (m : ManifestV2S2) :
    (Manifest.image m).get_blob_dependencies
      = m.layers.map (fun l => l.digest) ++ [m.config.digest] := rfl

/-! ## C7 -/

/-- C7: `copy_refs` raises a `ValueError` before any I/O (the event
trace is empty) whenever the object kinds differ, or the destination is
a digest ref whose digest differs from the source ref. -/
theorem c7_mismatch_fails_before_io (env : CopyEnv) (src dst : RRef)
    (h : src.objectType ≠ dst.objectType
      ∨ (isDigestRef dst.ref = true ∧ src.ref ≠ dst.ref)) :
    (copyRefs env src dst).1 = []
      ∧ ∃ msg, (copyRefs env src dst).2 = .error (.valueError msg) := by
  by_cases hk : src.objectType = dst.objectType
  · rcases h with h | ⟨h1, h2⟩
    · exact absurd hk h
    · unfold copyRefs
      rw [if_neg (not_not.mpr hk), if_pos]
      · exact ⟨rfl, _, rfl⟩
      · simp [h1, h2]
  · unfold copyRefs
    rw [if_pos hk]
    exact ⟨rfl, _, rfl⟩

/-- C7 witness: a manifest-to-blob copy fails with an empty trace. -/
theorem c7_witness :
    (copyRefs envTriv ⟨.manifests, ["library", "alpine"], "latest"⟩
        ⟨.blobs, ["library", "alpine"], "latest"⟩).1 = []
      ∧ ∃ msg, (copyRefs envTriv ⟨.manifests, ["library", "alpine"], "latest"⟩
          ⟨.blobs, ["library", "alpine"], "latest"⟩).2 = .error (.valueError msg) :=
  c7_mismatch_fails_before_io envTriv _ _ (Or.inl (by decide))

/-! ## C8 -/

/-- C8: when the source is a digest ref and the destination HEAD returns
200, `copy_refs` performs exactly that HEAD request and returns `False`
("content already existed, no bytes copied"). -/
theorem c8_existing_destination_short_circuits (env : CopyEnv) (src dst : RRef)
    (hk : src.objectType = dst.objectType)
    (hd : isDigestRef dst.ref = true → src.ref = dst.ref)
    (hs : isDigestRef src.ref = true)
    (hh : env.dstHeadStatus = 200) :
    copyRefs env src dst = ([CopyEvent.headRequest (refUrl dst)], .ok false) := by
  unfold copyRefs
  rw [if_neg (not_not.mpr hk), if_neg, if_pos hs]
  · simp [ref_exists, hh]
  · intro hcond
    rw [Bool.and_eq_true, bne_iff_ne] at hcond
    exact hcond.2 (hd hcond.1)

def envExists : CopyEnv :=
  ⟨200, .error (.registryError "unused"), fun _ _ => .ok true, 201, 202,
   "https://up.example/session/42", [], fun _ => (202, "https://up.example/session/43"), 201⟩

/-- C8 witness: copying an existing digest-ref blob to itself performs
one HEAD and returns `False`. -/
theorem c8_witness :
    copyRefs envExists ⟨.blobs, ["library", "alpine"], digA⟩
        ⟨.blobs, ["library", "alpine"], digA⟩
      = ([CopyEvent.headRequest (refUrl ⟨.blobs, ["library", "alpine"], digA⟩)], .ok false) :=
  c8_existing_destination_short_circuits envExists _ _ rfl (fun _ => rfl) (by decide) rfl

/-! ## Passing the precondition and existence checks -/

/-- When the kinds match, any digest-ref destination matches the source
ref, and the destination HEAD reports 404, `copy_refs` proceeds to the
manifest/blob path with the existence-check HEAD (if the source is a
digest ref) as the accumulated trace. -/
theorem copyRefs_reaches_main (env : CopyEnv) (src dst : RRef)
    (hk : src.objectType = dst.objectType)
    (hd : isDigestRef dst.ref = true → src.ref = dst.ref)
    (hh : env.dstHeadStatus = 404) :
    copyRefs env src dst
      = copyRefsMain env src dst
          (if isDigestRef src.ref then [CopyEvent.headRequest (refUrl dst)] else []) := by
  unfold copyRefs
  rw [if_neg (not_not.mpr hk), if_neg]
  · cases hs : isDigestRef src.ref with
    | true => simp [hs, ref_exists, hh]
    | false => simp [hs]
  · intro hcond
    rw [Bool.and_eq_true, bne_iff_ne] at hcond
    exact hcond.2 (hd hcond.1)

/-! ## C2 -/

/-- C2 counterexample: the claim says the finalizing PUT appends the
digest with `&` when the upload URL has a query string and with `?`
otherwise.  On an upload whose final `Location` is
`https://up.example/session/42` (no query string) the code still
appends `&digest=...`, producing a URL different from the `?`-separated
URL the claim requires. -/
theorem c2_counterexample :
    (copyRefs envTriv ⟨.blobs, ["library", "alpine"], digA⟩
        ⟨.blobs, ["library", "alpine"], digA⟩).1.getLast?
      = some (CopyEvent.uploadPut ("https://up.example/session/42&digest=" ++ digA))
      ∧ ¬ ('?' ∈ "https://up.example/session/42".data)
      ∧ ("https://up.example/session/42&digest=" ++ digA)
          ≠ ("https://up.example/session/42?digest=" ++ digA) := by
  refine ⟨by decide, by decide, by decide⟩

/-- C2 amended: the finalizing PUT targets
`<current upload URL> ++ "&digest=" ++ src.ref` unconditionally,
whether or not the upload URL already contains a query string. -/
theorem c2_amended_ampersand_always (env : CopyEnv) (src dst : RRef)
    (pevs : List CopyEvent) (loc : String)
    (hs : src.objectType = .blobs) (hd : dst.objectType = .blobs)
    (hdig : isDigestRef dst.ref = true → src.ref = dst.ref)
    (hh : env.dstHeadStatus = 404)
    (hpost : env.uploadPostStatus / 100 = 2)
    (hup : uploadChunks env.patchResp 0 env.uploadPostLocation env.blobChunks
      = (pevs, .ok loc)) :
    (copyRefs env src dst).1
      = (if isDigestRef src.ref then [CopyEvent.headRequest (refUrl dst)] else [])
        ++ CopyEvent.uploadPost (uploadUrlOf dst "") :: pevs
        ++ [CopyEvent.uploadPut (loc ++ "&digest=" ++ src.ref)] := by
  rw [copyRefs_reaches_main env src dst (by rw [hs, hd]) hdig hh]
  unfold copyRefsMain
  rw [hs]
  simp only [hpost, hup]
  cases hput : env.uploadPutStatus / 100 == 2 <;> simp

/-- C2 amended witness: a concrete digest-ref blob copy whose upload
location carries no query string still finalizes at
`<location>&digest=<digest>`. -/
theorem c2_amended_witness :
    (copyRefs envTriv ⟨.blobs, ["library", "alpine"], digA⟩
        ⟨.blobs, ["library", "alpine"], digA⟩).1
      = (if isDigestRef digA then
          [CopyEvent.headRequest (refUrl ⟨.blobs, ["library", "alpine"], digA⟩)] else [])
        ++ CopyEvent.uploadPost (uploadUrlOf ⟨.blobs, ["library", "alpine"], digA⟩ "") :: []
        ++ [CopyEvent.uploadPut ("https://up.example/session/42&digest=" ++ digA)] :=
  c2_amended_ampersand_always envTriv _ _ [] "https://up.example/session/42"
    rfl rfl (fun _ => rfl) rfl rfl rfl

/-! ## C3 -/

/-- C3 (amended): on a first-attempt 401 carrying a well-formed Bearer
challenge whose token fetch succeeds, `_request` retries the original
request exactly once with the new bearer token (two attempts, one token
fetch, in that order) and hands the retried response to the caller
unchanged -- including a 401, which is returned as a response rather
than raised as an error. -/
theorem c3_retry_once_then_return (cached : Option String) (creds : Bool)
    (srv : AuthServer) (realm : String) (params : List (String × String))
    (h1 : srv.resp1.status = 401)
    (h2 : srv.resp1.wwwAuth = .bearer (some realm) params)
    (h3 : srv.tokenStatus = 200) :
    requestModel cached creds srv
      = ([.attempt (initialAuth cached creds), .tokenFetch realm params,
          .attempt (.bearer srv.token)], .success srv.resp2, some srv.token)
      ∧ ((requestModel cached creds srv).1.countP (fun e => e.isAttempt)) = 2
      ∧ ((requestModel cached creds srv).1.countP (fun e => e.isTokenFetch)) = 1 := by
  have hmain : requestModel cached creds srv
      = ([.attempt (initialAuth cached creds), .tokenFetch realm params,
          .attempt (.bearer srv.token)], .success srv.resp2, some srv.token) := by
    simp [requestModel, h1, h2, h3]
  refine ⟨hmain, ?_, ?_⟩ <;>
    rw [hmain] <;>
    simp [List.countP_cons, ReqEvent.isAttempt, ReqEvent.isTokenFetch]

def srvBoth401 : AuthServer :=
  ⟨⟨401, .bearer (some "https://auth.example/token") [("service", "registry")]⟩,
   200, "tok123", ⟨401, .notBearer⟩⟩

/-- C3 counterexample: the claim says a 401 on the retry is surfaced to
the caller as an unauthorized *error*.  With a server that answers 401
(with a valid challenge), grants a token, and answers 401 again, the
transport returns the second 401 response to the caller as a normal
response; no error is raised. -/
theorem c3_counterexample :
    (requestModel none false srvBoth401).2.1 = .success ⟨401, .notBearer⟩
      ∧ ((requestModel none false srvBoth401).2.1).isFailure = false := by
  refine ⟨by decide, by decide⟩

def srvRetryOk : AuthServer :=
  ⟨⟨401, .bearer (some "https://auth.example/token") [("service", "registry")]⟩,
   200, "tok123", ⟨200, .notBearer⟩⟩

/-- C3 witness: a concrete 401-challenge-token-retry interaction. -/
theorem c3_witness :
    requestModel none true srvRetryOk
      = ([.attempt (initialAuth none true),
          .tokenFetch "https://auth.example/token" [("service", "registry")],
          .attempt (.bearer srvRetryOk.token)], .success srvRetryOk.resp2, some srvRetryOk.token)
      ∧ ((requestModel none true srvRetryOk).1.countP (fun e => e.isAttempt)) = 2
      ∧ ((requestModel none true srvRetryOk).1.countP (fun e => e.isTokenFetch)) = 1 :=
  c3_retry_once_then_return none true srvRetryOk _ _ rfl rfl rfl

/-! ## C4 -/

/-- `gather` raises no child error iff every child result is a success. -/
theorem firstChildError_eq_none_iff (env : CopyEnv) (tds : List (ObjectType × String)) :
    firstChildError env tds = none
      ↔ ∀ td ∈ tds, (env.childResult td.1 td.2).isOk = true := by
  induction tds with
  | nil => simp [firstChildError]
  | cons td tds ih =>
    unfold firstChildError
    cases hc : env.childResult td.1 td.2 with
    | error e =>
      simp only [hc, ih]
      constructor
      · intro h
        exact Option.noConfusion h
      · intro h
        have := h td (by simp)
        rw [hc] at this
        exact absurd this (by simp [Except.isOk, Except.toBool])
    | ok b =>
      simp only [hc, ih]
      constructor
      · intro h td' htd'
        rcases List.mem_cons.mp htd' with heq | hmem
        · rw [heq, hc]; rfl
        · exact h td' hmem
      · intro h td' htd'
        exact h td' (List.mem_cons_of_mem _ htd')

/-- C4: in a manifest copy, if every child copy succeeds the trace is
the (possible) existence HEAD, the manifest GET, one completion event
per dependency (in `gather` order), and the parent manifest PUT as the
final event; if any child copy fails, no manifest PUT is ever issued
and the copy fails. -/
theorem c4_children_complete_before_parent_put (env : CopyEnv) (src dst : RRef)
    (man : Manifest)
    (hk : src.objectType = .manifests) (hd : dst.objectType = .manifests)
    (hdig : isDigestRef dst.ref = true → src.ref = dst.ref)
    (hh : env.dstHeadStatus = 404)
    (hman : env.manifest = .ok man) :
    ((∀ td ∈ manifestDeps man, (env.childResult td.1 td.2).isOk = true) →
      (copyRefs env src dst).1
        = (if isDigestRef src.ref then [CopyEvent.headRequest (refUrl dst)] else [])
          ++ CopyEvent.manifestGet (refUrl src)
            :: (manifestDeps man).map (fun td => CopyEvent.childCopy td.1 td.2)
          ++ [CopyEvent.manifestPut (refUrl dst) man.canonical man.get_media_type])
    ∧ ((∃ td ∈ manifestDeps man, (env.childResult td.1 td.2).isOk = false) →
      (∀ u b c, CopyEvent.manifestPut u b c ∉ (copyRefs env src dst).1)
        ∧ ∃ e, (copyRefs env src dst).2 = .error e) := by
  rw [copyRefs_reaches_main env src dst (by rw [hk, hd]) hdig hh]
  unfold copyRefsMain
  rw [hk]
  simp only [hman]
  constructor
  · intro hall
    have hnone : firstChildError env (manifestDeps man) = none :=
      (firstChildError_eq_none_iff env _).mpr hall
    have hfilt : (manifestDeps man).filter
        (fun td => (env.childResult td.1 td.2).isOk) = manifestDeps man :=
      List.filter_eq_self.mpr hall
    rw [hnone]
    simp only [hfilt]
    cases hput : env.manifestPutStatus / 100 == 2 <;> simp
  · intro hex
    have hsome : firstChildError env (manifestDeps man) ≠ none := by
      intro hnone
      rcases hex with ⟨td, htd, hfail⟩
      have := (firstChildError_eq_none_iff env _).mp hnone td htd
      rw [hfail] at this
      exact Bool.false_ne_true this
    cases hfc : firstChildError env (manifestDeps man) with
    | none => exact absurd hfc hsome
    | some e =>
      refine ⟨?_, e, rfl⟩
      intro u b c hmem
      cases hdr : isDigestRef src.ref <;> simp [hdr] at hmem

def mC4 : Manifest :=
  .image ⟨none,
    ⟨"application/vnd.oci.image.config.v1+json", 100, "sha256:c4cfg", none, none⟩,
    [⟨"application/vnd.oci.image.layer.v1.tar", 200, "sha256:c4lay", none, none⟩]⟩

def envC4 : CopyEnv :=
  ⟨404, .ok mC4, fun _ _ => .ok true, 201, 202,
   "https://up.example/session/44", [], fun _ => (202, "https://up.example/session/45"), 201⟩

/-- C4 witness: a concrete manifest copy with one config and one layer
dependency. -/
theorem c4_witness :
    ((∀ td ∈ manifestDeps mC4, (envC4.childResult td.1 td.2).isOk = true) →
      (copyRefs envC4 ⟨.manifests, ["library", "alpine"], "latest"⟩
          ⟨.manifests, ["library", "alpine"], "latest"⟩).1
        = (if isDigestRef "latest" then
            [CopyEvent.headRequest (refUrl ⟨.manifests, ["library", "alpine"], "latest"⟩)]
          else [])
          ++ CopyEvent.manifestGet (refUrl ⟨.manifests, ["library", "alpine"], "latest"⟩)
            :: (manifestDeps mC4).map (fun td => CopyEvent.childCopy td.1 td.2)
          ++ [CopyEvent.manifestPut (refUrl ⟨.manifests, ["library", "alpine"], "latest"⟩)
                mC4.canonical mC4.get_media_type])
    ∧ ((∃ td ∈ manifestDeps mC4, (envC4.childResult td.1 td.2).isOk = false) →
      (∀ u b c, CopyEvent.manifestPut u b c
          ∉ (copyRefs envC4 ⟨.manifests, ["library", "alpine"], "latest"⟩
              ⟨.manifests, ["library", "alpine"], "latest"⟩).1)
        ∧ ∃ e, (copyRefs envC4 ⟨.manifests, ["library", "alpine"], "latest"⟩
            ⟨.manifests, ["library", "alpine"], "latest"⟩).2 = .error e) :=
  c4_children_complete_before_parent_put envC4 _ _ mC4 rfl rfl
    (fun h => absurd h (by decide)) rfl rfl

/-! ## C9 -/

/-- Prepending an exactly-sized chunk preserves the chunk-shape
property (all chunks full except possibly the last). -/
theorem chunkShape_cons (s : Nat) (a : List Nat) (l : List (List Nat))
    (ha : a.length = s)
    (h1 : ∀ c ∈ l.dropLast, c.length = s)
    (h2 : ∀ c, l.getLast? = some c → c.length ≤ s) :
    (∀ c ∈ (a :: l).dropLast, c.length = s)
      ∧ (∀ c, (a :: l).getLast? = some c → c.length ≤ s) := by
  cases l with
  | nil =>
    constructor
    · intro c hc
      simp at hc
    · intro c hc
      simp at hc
      rw [← hc, ha]
  | cons b t =>
    constructor
    · intro c hc
      rw [List.dropLast_cons₂] at hc
      rcases List.mem_cons.mp hc with heq | hmem
      · rw [heq, ha]
      · exact h1 c hmem
    · intro c hc
      rw [List.getLast?_cons_cons] at hc
      exact h2 c hc

/-- Invariant proof for the rechunking loop: under the `iter_chunked`
bound on input chunk sizes, the loop preserves all bytes and produces
only full chunks except possibly a final shorter one. -/
theorem rechunkLoop_spec (s : Nat) (hs : 0 < s) :
    ∀ (input : List (List Nat)), ∀ (cur : List (List Nat)) (curSize : Nat),
      (∀ c ∈ input, c.length ≤ s) →
      curSize = cur.flatten.length →
      curSize < s →
      (rechunkLoop s input cur curSize).flatten = cur.flatten ++ input.flatten
        ∧ (∀ c ∈ (rechunkLoop s input cur curSize).dropLast, c.length = s)
        ∧ (∀ c, (rechunkLoop s input cur curSize).getLast? = some c → c.length ≤ s) := by
  intro input
  induction input with
  | nil =>
    intro cur curSize hbound hsize hlt
    unfold rechunkLoop
    cases cur with
    | nil => simp
    | cons x t =>
      simp only [List.isEmpty_cons, if_neg Bool.false_ne_true]
      refine ⟨by simp, by simp, ?_⟩
      intro c hc
      simp at hc
      rw [List.flatten_cons] at hsize
      rw [← hc]
      omega
  | cons c cs ih =>
    intro cur curSize hbound hsize hlt
    have hc : c.length ≤ s := hbound c (List.mem_cons_self c cs)
    have hbound' : ∀ x ∈ cs, x.length ≤ s :=
      fun x hx => hbound x (List.mem_cons_of_mem _ hx)
    unfold rechunkLoop
    by_cases hbr : s - curSize ≤ c.length
    · rw [if_pos hbr]
      have htake : (c.take (s - curSize)).length = s - curSize := by
        rw [List.length_take]
        omega
      have hhead : (cur.flatten ++ c.take (s - curSize)).length = s := by
        rw [List.length_append, htake, ← hsize]
        omega
      have hnewflat :
          (if s - curSize < c.length then [c.drop (s - curSize)] else []).flatten
            = c.drop (s - curSize) := by
        by_cases hlt2 : s - curSize < c.length
        · rw [if_pos hlt2]; simp
        · rw [if_neg hlt2]
          have : c.length = s - curSize := by omega
          simp [List.drop_eq_nil_of_le, this]
      have hnewsize : curSize + c.length - s
          = (if s - curSize < c.length then [c.drop (s - curSize)] else []).flatten.length := by
        rw [hnewflat, List.length_drop]
        omega
      have hnewlt : curSize + c.length - s < s := by omega
      obtain ⟨ihflat, ih1, ih2⟩ := ih _ _ hbound' hnewsize hnewlt
      refine ⟨?_, ?_, ?_⟩
      · rw [List.flatten_cons, ihflat, hnewflat]
        simp only [List.flatten_cons, List.append_assoc]
        rw [← List.append_assoc (List.take (s - curSize) c), List.take_append_drop]
      · exact (chunkShape_cons s _ _ hhead ih1 ih2).1
      · exact (chunkShape_cons s _ _ hhead ih1 ih2).2
    · rw [if_neg hbr]
      have hnewsize : curSize + c.length = (cur ++ [c]).flatten.length := by
        rw [List.flatten_append]
        simp [← hsize]
      have hnewlt : curSize + c.length < s := by omega
      obtain ⟨ihflat, ih1, ih2⟩ := ih _ _ hbound' hnewsize hnewlt
      refine ⟨?_, ih1, ih2⟩
      rw [ihflat, List.flatten_append]
      simp

/-- C9: for every response-body chunk sequence (as delivered by
`iter_chunked(chunk_size)`, whose chunks are at most `chunk_size`
long) and positive `chunk_size`, the rechunking loop of
`ref_content_stream` preserves the concatenated bytes and yields
chunks of exactly `chunk_size` bytes except possibly the last, which
is at most `chunk_size` bytes. -/
theorem c9_rechunk_exact_sizes (chunkSize : Nat) (input : List (List Nat))
    (hpos : 0 < chunkSize)
    (hbound : ∀ c ∈ input, c.length ≤ chunkSize) :
    (rechunk chunkSize input).flatten = input.flatten
      ∧ (∀ c ∈ (rechunk chunkSize input).dropLast, c.length = chunkSize)
      ∧ (∀ c, (rechunk chunkSize input).getLast? = some c → c.length ≤ chunkSize) := by
  have h := rechunkLoop_spec chunkSize hpos input [] 0 hbound (by simp) hpos
  rwa [List.flatten_nil, List.nil_append] at h

def exC9 : List (List Nat) := [[97, 98, 99], [100, 101, 102], [103, 104, 105, 106]]

/-- C9 witness: the spec's example `[b"abc", b"def", b"ghij"]` rechunked
at size 5 yields `[b"abcde", b"fghij"]`. -/
theorem c9_witness :
    ((rechunk 5 exC9).flatten = exC9.flatten
      ∧ (∀ c ∈ (rechunk 5 exC9).dropLast, c.length = 5)
      ∧ (∀ c, (rechunk 5 exC9).getLast? = some c → c.length ≤ 5))
    ∧ rechunk 5 exC9 = [[97, 98, 99, 100, 101], [102, 103, 104, 105, 106]] :=
  ⟨c9_rechunk_exact_sizes 5 exC9 (by decide) (by decide), by decide⟩

/-! ## C10 -/

/-- Invariant proof for non-emptiness: when the input chunks are
non-empty and at most `chunkSize` long (as `iter_chunked` guarantees)
and the accumulator holds only non-empty chunks matching its recorded
size, every chunk the loop yields is non-empty. -/
theorem rechunkLoop_nonempty (s : Nat) (hs : 0 < s) :
    ∀ (input : List (List Nat)), ∀ (cur : List (List Nat)) (curSize : Nat),
      (∀ c ∈ input, 0 < c.length ∧ c.length ≤ s) →
      curSize = cur.flatten.length →
      curSize < s →
      (∀ x ∈ cur, 0 < x.length) →
      ∀ ch ∈ rechunkLoop s input cur curSize, 0 < ch.length := by
  intro input
  induction input with
  | nil =>
    intro cur curSize hbound hsize hlt hne
    unfold rechunkLoop
    cases cur with
    | nil => simp
    | cons x t =>
      simp only [List.isEmpty_cons, if_neg Bool.false_ne_true]
      intro ch hch
      simp at hch
      rw [hch, List.length_append]
      have := hne x (List.mem_cons_self x t)
      omega
  | cons c cs ih =>
    intro cur curSize hbound hsize hlt hne
    have hc := hbound c (List.mem_cons_self c cs)
    have hbound' : ∀ x ∈ cs, 0 < x.length ∧ x.length ≤ s :=
      fun x hx => hbound x (List.mem_cons_of_mem _ hx)
    unfold rechunkLoop
    by_cases hbr : s - curSize ≤ c.length
    · rw [if_pos hbr]
      intro ch hch
      rcases List.mem_cons.mp hch with heq | hmem
      · rw [heq, List.length_append, List.length_take]
        omega
      · refine ih _ _ hbound' ?_ (by omega) ?_ ch hmem
        · by_cases hlt2 : s - curSize < c.length
          · rw [if_pos hlt2]
            simp [List.length_drop]
            omega
          · rw [if_neg hlt2]
            simp
            omega
        · intro x hx
          by_cases hlt2 : s - curSize < c.length
          · rw [if_pos hlt2] at hx
            rcases List.mem_cons.mp hx with heq | hmem2
            · rw [heq, List.length_drop]
              omega
            · exact absurd hmem2 (List.not_mem_nil x)
          · rw [if_neg hlt2] at hx
            exact absurd hx (List.not_mem_nil x)
    · rw [if_neg hbr]
      refine ih _ _ hbound' ?_ (by omega) ?_
      · rw [List.flatten_append]
        simp [← hsize]
      · intro x hx
        rcases List.mem_append.mp hx with hmem | hmem
        · exact hne x hmem
        · rcases List.mem_cons.mp hmem with heq | hmem2
          · rw [heq]; exact hc.1
          · exact absurd hmem2 (List.not_mem_nil x)

/-- C10: every chunk `ref_content_stream` yields is non-empty: with a
positive `chunk_size` and input chunks that are non-empty and at most
`chunk_size` long (the `iter_chunked` guarantees), no yielded chunk is
empty -- in particular a body whose length is an exact multiple of
`chunk_size` produces no trailing empty chunk -- and an empty body (no
input chunks) yields no chunks at all. -/
theorem c10_no_empty_chunks (chunkSize : Nat) (input : List (List Nat))
    (hpos : 0 < chunkSize)
    (hbound : ∀ c ∈ input, 0 < c.length ∧ c.length ≤ chunkSize) :
    (∀ ch ∈ rechunk chunkSize input, 0 < ch.length)
      ∧ rechunk chunkSize [] = ([] : List (List Nat)) :=
  ⟨rechunkLoop_nonempty chunkSize hpos input [] 0 hbound (by simp) hpos
      (by intro x hx; exact absurd hx (List.not_mem_nil x)),
   rfl⟩

def exC10 : List (List Nat) := [[1, 2], [3, 4]]

/-- C10 witness: a body of length 4 streamed in two chunks of two bytes
at `chunk_size = 2` (an exact multiple) yields exactly two non-empty
chunks and no trailing empty chunk. -/
theorem c10_witness :
    ((∀ ch ∈ rechunk 2 exC10, 0 < ch.length)
      ∧ rechunk 2 ([] : List (List Nat)) = ([] : List (List Nat)))
    ∧ rechunk 2 exC10 = [[1, 2], [3, 4]] :=
  ⟨c10_no_empty_chunks 2 exC10 (by decide) (by decide), by decide⟩

/-! ## C5: canonical-form round trip

Stage 1: ordering machinery for `sort_keys=True`.  `sortByKey` is a
stable insertion sort by string key; we need that it permutes its input
(so field lookup is unchanged on objects with distinct keys), that it is
idempotent (so re-serializing a parsed sorted document sorts to the same
object), and that it commutes with key-preserving maps. -/

theorem strListLe_total : ∀ a b : List Char, strListLe a b = true ∨ strListLe b a = true
  | [], _ => Or.inl rfl
  | _ :: _, [] => Or.inr rfl
  | a :: as, b :: bs => by
    simp only [strListLe]
    by_cases h1 : a.toNat < b.toNat
    · left
      rw [if_pos h1]
    · by_cases h2 : b.toNat < a.toNat
      · right
        rw [if_pos h2]
      · rw [if_neg h1, if_neg h2, if_neg h2, if_neg h1]
        exact strListLe_total as bs

theorem strListLe_trans : ∀ a b c : List Char,
    strListLe a b = true → strListLe b c = true → strListLe a c = true
  | [], _, _, _, _ => rfl
  | _ :: _, [], _, h1, _ => absurd h1 (by simp [strListLe])
  | _ :: _, _ :: _, [], _, h2 => absurd h2 (by simp [strListLe])
  | a :: as, b :: bs, c :: cs, h1, h2 => by
    simp only [strListLe] at h1 h2 ⊢
    by_cases hab : a.toNat < b.toNat
    · rw [if_pos hab] at h1
      by_cases hbc : b.toNat < c.toNat
      · rw [if_pos (by omega : a.toNat < c.toNat)]
      · rw [if_neg hbc] at h2
        by_cases hcb : c.toNat < b.toNat
        · rw [if_pos hcb] at h2
          exact absurd h2 (by simp)
        · rw [if_pos (by omega : a.toNat < c.toNat)]
    · rw [if_neg hab] at h1
      by_cases hba : b.toNat < a.toNat
      · rw [if_pos hba] at h1
        exact absurd h1 (by simp)
      · rw [if_neg hba] at h1
        by_cases hbc : b.toNat < c.toNat
        · rw [if_pos hbc] at h2
          rw [if_pos (by omega : a.toNat < c.toNat)]
        · rw [if_neg hbc] at h2
          by_cases hcb : c.toNat < b.toNat
          · rw [if_pos hcb] at h2
            exact absurd h2 (by simp)
          · rw [if_neg hcb] at h2
            rw [if_neg (by omega : ¬ a.toNat < c.toNat),
              if_neg (by omega : ¬ c.toNat < a.toNat)]
            exact strListLe_trans as bs cs h1 h2

theorem keyLe_total (a b : String) : keyLe a b = true ∨ keyLe b a = true :=
  strListLe_total a.data b.data

theorem keyLe_trans {a b c : String} (h1 : keyLe a b = true) (h2 : keyLe b c = true) :
    keyLe a c = true :=
  strListLe_trans a.data b.data c.data h1 h2

/-- The ordering `sortByKey` establishes. -/
def keyR {α : Type} (key : α → String) : α → α → Prop :=
  fun p q => keyLe (key p) (key q) = true

theorem insertByKey_perm {α : Type} (key : α → String) (p : α) :
    ∀ l : List α, (insertByKey key p l).Perm (p :: l)
  | [] => List.Perm.refl _
  | q :: qs => by
    unfold insertByKey
    by_cases h : keyLe (key p) (key q) = true
    · rw [if_pos h]
    · rw [if_neg h]
      exact ((insertByKey_perm key p qs).cons q).trans (List.Perm.swap p q qs)

theorem sortByKey_perm {α : Type} (key : α → String) :
    ∀ l : List α, (sortByKey key l).Perm l
  | [] => List.Perm.refl _
  | p :: ps =>
    (insertByKey_perm key p (sortByKey key ps)).trans ((sortByKey_perm key ps).cons p)

theorem pairwise_insertByKey {α : Type} (key : α → String) (p : α) :
    ∀ l : List α, List.Pairwise (keyR key) l →
      List.Pairwise (keyR key) (insertByKey key p l)
  | [], _ => List.Pairwise.cons (by intro b hb; exact absurd hb (List.not_mem_nil b)) .nil
  | q :: qs, h => by
    unfold insertByKey
    rcases List.pairwise_cons.mp h with ⟨hq, hqs⟩
    by_cases hle : keyLe (key p) (key q) = true
    · rw [if_pos hle]
      refine List.pairwise_cons.mpr ⟨?_, h⟩
      intro b hb
      rcases List.mem_cons.mp hb with heq | hmem
      · rw [heq]
        exact hle
      · exact keyLe_trans hle (hq b hmem)
    · rw [if_neg hle]
      refine List.pairwise_cons.mpr ⟨?_, pairwise_insertByKey key p qs hqs⟩
      intro b hb
      rcases List.mem_cons.mp ((insertByKey_perm key p qs).mem_iff.mp hb) with heq | hmem
      · rw [heq]
        rcases keyLe_total (key p) (key q) with htot | htot
        · exact absurd htot hle
        · exact htot
      · exact hq b hmem

theorem sortByKey_pairwise {α : Type} (key : α → String) :
    ∀ l : List α, List.Pairwise (keyR key) (sortByKey key l)
  | [] => .nil
  | p :: ps => pairwise_insertByKey key p _ (sortByKey_pairwise key ps)

theorem sortByKey_eq_of_pairwise {α : Type} (key : α → String) :
    ∀ l : List α, List.Pairwise (keyR key) l → sortByKey key l = l
  | [], _ => rfl
  | p :: ps, h => by
    rcases List.pairwise_cons.mp h with ⟨hp, hps⟩
    unfold sortByKey
    rw [sortByKey_eq_of_pairwise key ps hps]
    cases ps with
    | nil => rfl
    | cons q qs =>
      unfold insertByKey
      rw [if_pos (show keyLe (key p) (key q) = true from hp q (List.mem_cons_self q qs))]

theorem sortByKey_idem {α : Type} (key : α → String) (l : List α) :
    sortByKey key (sortByKey key l) = sortByKey key l :=
  sortByKey_eq_of_pairwise key _ (sortByKey_pairwise key l)

theorem insertByKey_map {α β : Type} (key1 : α → String) (key2 : β → String)
    (f : α → β) (hf : ∀ a, key2 (f a) = key1 a) (p : α) :
    ∀ l : List α, insertByKey key2 (f p) (l.map f) = (insertByKey key1 p l).map f
  | [] => rfl
  | q :: qs => by
    simp only [List.map_cons, insertByKey, hf]
    by_cases h : keyLe (key1 p) (key1 q) = true
    · rw [if_pos h, if_pos h, List.map_cons, List.map_cons]
    · rw [if_neg h, if_neg h, List.map_cons, insertByKey_map key1 key2 f hf p qs]

theorem sortByKey_map {α β : Type} (key1 : α → String) (key2 : β → String)
    (f : α → β) (hf : ∀ a, key2 (f a) = key1 a) :
    ∀ l : List α, sortByKey key2 (l.map f) = (sortByKey key1 l).map f
  | [] => rfl
  | p :: ps => by
    simp only [List.map_cons, sortByKey]
    rw [sortByKey_map key1 key2 f hf ps, insertByKey_map key1 key2 f hf]

/-- Looking a key up in a permuted association list with distinct keys
gives the same result; this is why `sort_keys=True` does not change how
pydantic reads the document back. -/
theorem jLookup_perm : ∀ {l l' : List (String × Json)}, l.Perm l' →
    (l.map Prod.fst).Nodup → ∀ k, jLookup k l = jLookup k l' := by
  intro l l' h
  induction h with
  | nil =>
    intro _ _
    rfl
  | cons x h ih =>
    intro hnd k
    rw [List.map_cons, List.nodup_cons] at hnd
    simp only [jLookup]
    by_cases hk : x.1 = k
    · rw [if_pos hk, if_pos hk]
    · rw [if_neg hk, if_neg hk]
      exact ih hnd.2 k
  | swap x y l =>
    intro hnd k
    rw [List.map_cons, List.map_cons, List.nodup_cons, List.nodup_cons] at hnd
    simp only [jLookup]
    by_cases hy : y.1 = k <;> by_cases hx : x.1 = k
    · exfalso
      exact hnd.1 (by rw [hy, hx]; exact List.mem_cons_self _ _)
    · rw [if_pos hy, if_neg hx, if_pos hy]
    · rw [if_neg hy, if_pos hx, if_pos hx]
    · rw [if_neg hy, if_neg hx, if_neg hx, if_neg hy]
  | trans h1 h2 ih1 ih2 =>
    intro hnd k
    rw [ih1 hnd k, ih2 (((h1.map Prod.fst).nodup_iff).mp hnd) k]

/-! ## C5 stage 2: normalization and well-formedness

Parsing the sorted (non-Docker) canonical form gives back the manifest
with its annotation maps key-sorted; `norm` is that normalization.  It
changes nothing the canonical form (which re-sorts) or the digest can
see.  `wf` states the `Literal` media-type constraints that pydantic
enforces and that any constructed model instance satisfies. -/

def sortAnn : Option (List (String × String)) → Option (List (String × String))
  | none => none
  | some l => some (sortByKey Prod.fst l)

def ManifestDescriptor.norm (d : ManifestDescriptor) : ManifestDescriptor :=
  ⟨d.media_type, d.size, d.digest, d.urls, sortAnn d.annotations⟩

def ManifestListItem.norm (it : ManifestListItem) : ManifestListItem :=
  ⟨it.media_type, it.size, it.digest, it.urls, sortAnn it.annotations, it.platform⟩

def ManifestV2S2.norm (m : ManifestV2S2) : ManifestV2S2 :=
  ⟨m.media_type, m.config.norm, m.layers.map ManifestDescriptor.norm⟩

def ManifestListV2S2.norm (m : ManifestListV2S2) : ManifestListV2S2 :=
  ⟨m.media_type, m.manifests.map ManifestListItem.norm, sortAnn m.annotations⟩

def Manifest.norm : Manifest → Manifest
  | .list m => .list m.norm
  | .image m => .image m.norm
  | .v1 m => .v1 m

def ManifestListV2S2.wf (m : ManifestListV2S2) : Bool :=
  match m.media_type with
  | none => true
  | some s => s == OCI_INDEX || s == DOCKER_LIST

def ManifestV2S2.wf (m : ManifestV2S2) : Bool :=
  match m.media_type with
  | none => true
  | some s => s == OCI_MANIFEST || s == DOCKER_V2

/-- The media-type `Literal` constraints every pydantic model instance
satisfies. -/
def Manifest.wf : Manifest → Bool
  | .list m => m.wf
  | .image m => m.wf
  | .v1 _ => true

/-! ## C5 stage 3: value-level round-trip lemmas -/

theorem parseStrs_map_str : ∀ us : List String, parseStrs (us.map Json.str) = .ok us
  | [] => rfl
  | u :: us => by
    simp only [List.map_cons, parseStrs, asStr, parseStrs_map_str us]

theorem parseStrMap_map : ∀ l : List (String × String),
    parseStrMap (l.map (fun kv => (kv.1, Json.str kv.2))) = .ok l
  | [] => rfl
  | kv :: l => by
    simp only [List.map_cons, parseStrMap, asStr, parseStrMap_map l]

theorem sortJsonList_map_str : ∀ us : List String,
    sortJsonList (us.map Json.str) = us.map Json.str
  | [] => rfl
  | u :: us => by
    simp only [List.map_cons, sortJsonList, sortJson, sortJsonList_map_str us]

theorem sortJsonPairs_map_str : ∀ l : List (String × String),
    sortJsonPairs (l.map (fun kv => (kv.1, Json.str kv.2)))
      = l.map (fun kv => (kv.1, Json.str kv.2))
  | [] => rfl
  | kv :: l => by
    simp only [List.map_cons, sortJsonPairs, sortJson, sortJsonPairs_map_str l]

theorem sortJson_strMapJson (l : List (String × String)) :
    sortJson (strMapJson l) = strMapJson (sortByKey Prod.fst l) := by
  simp only [strMapJson, sortJson, sortJsonPairs_map_str]
  rw [sortByKey_map Prod.fst Prod.fst (fun kv => (kv.1, Json.str kv.2)) (fun a => rfl) l]

/-- Reading fields of a key-permuted object (with distinct keys) is
unchanged; instantiates every `jLookup` a parser does. -/
theorem jLookup_sortByKey (P : List (String × Json))
    (hnd : (P.map Prod.fst).Nodup) (k : String) :
    jLookup k (sortByKey Prod.fst P) = jLookup k P :=
  jLookup_perm (sortByKey_perm Prod.fst P)
    (((sortByKey_perm Prod.fst P).map Prod.fst).nodup_iff.mpr hnd) k

/-! ## C5 stage 4: per-model round-trip lemmas -/

/-- Declaration-order round trip: validating the serialized descriptor
restores it exactly. -/
theorem parseDescriptor_toJson (d : ManifestDescriptor) :
    parseDescriptor d.toJson = .ok d := by
  obtain ⟨mt, sz, dg, us, ann⟩ := d
  cases us <;> cases ann <;>
    simp [ManifestDescriptor.toJson, parseDescriptor, optField, jLookup, reqStr, reqNum,
      optStrs, optStrMap, strMapJson, parseStrs_map_str, parseStrMap_map, Except.map]

/-- Key-sorting a string map commutes with its JSON encoding. -/
theorem sortByKey_map_str_pairs (l : List (String × String)) :
    sortByKey Prod.fst (l.map (fun kv => (kv.1, Json.str kv.2)))
      = (sortByKey Prod.fst l).map (fun kv => (kv.1, Json.str kv.2)) :=
  sortByKey_map Prod.fst Prod.fst (fun kv => (kv.1, Json.str kv.2)) (fun a => rfl) l

/-- Sorting the keys of a descriptor object (distinct keys) does not
change how it validates. -/
theorem parseDescriptor_sorted_obj (P : List (String × Json))
    (hnd : (P.map Prod.fst).Nodup) :
    parseDescriptor (.obj (sortByKey Prod.fst P)) = parseDescriptor (.obj P) := by
  simp only [parseDescriptor, jLookup_sortByKey P hnd]

/-- Sorted round trip: validating the key-sorted serialized descriptor
restores it with sorted annotations. -/
theorem parseDescriptor_sortJson (d : ManifestDescriptor) :
    parseDescriptor (sortJson d.toJson) = .ok d.norm := by
  obtain ⟨mt, sz, dg, us, ann⟩ := d
  cases us <;> cases ann <;>
    (simp only [ManifestDescriptor.toJson, optField, List.cons_append, List.nil_append,
       List.append_nil, sortJson, sortJsonPairs, sortJsonList_map_str, sortJson_strMapJson]
     rw [parseDescriptor_sorted_obj]
     · simp [parseDescriptor, jLookup, reqStr, reqNum, optStrs, optStrMap, strMapJson,
         sortJsonPairs_map_str, sortByKey_map_str_pairs,
         parseStrs_map_str, parseStrMap_map, Except.map, ManifestDescriptor.norm, sortAnn]
     · simp only [List.map_cons, List.map_nil]
       decide)

theorem sortJson_str (s : String) : sortJson (.str s) = .str s := by
  simp [sortJson]

theorem sortJson_num (n : Int) : sortJson (.num n) = .num n := by
  simp [sortJson]

theorem sortJson_obj (kvs : List (String × Json)) :
    sortJson (.obj kvs) = .obj (sortByKey Prod.fst (sortJsonPairs kvs)) := by
  simp [sortJson]

theorem sortJson_arr (xs : List Json) :
    sortJson (.arr xs) = .arr (sortJsonList xs) := by
  simp [sortJson]

theorem sortJson_arr_strs (us : List String) :
    sortJson (.arr (us.map Json.str)) = .arr (us.map Json.str) := by
  simp [sortJson, sortJsonList_map_str]

theorem parsePlatform_sorted_obj (P : List (String × Json))
    (hnd : (P.map Prod.fst).Nodup) :
    parsePlatform (.obj (sortByKey Prod.fst P)) = parsePlatform (.obj P) := by
  simp only [parsePlatform, jLookup_sortByKey P hnd]

/-- Declaration-order round trip for platform data. -/
theorem parsePlatform_toJson (p : PlatformData) :
    parsePlatform p.toJson = .ok p := by
  obtain ⟨a, o, ov, of_, v, f⟩ := p
  cases ov <;> cases of_ <;> cases v <;> cases f <;>
    simp [PlatformData.toJson, parsePlatform, optField, jLookup, reqStr, optStr,
      optStrs, parseStrs_map_str, Except.map]

/-- Sorted round trip for platform data (it has no nested maps, so it
comes back unchanged). -/
theorem parsePlatform_sortJson (p : PlatformData) :
    parsePlatform (sortJson p.toJson) = .ok p := by
  obtain ⟨a, o, ov, of_, v, f⟩ := p
  cases ov <;> cases of_ <;> cases v <;> cases f <;>
    (simp only [PlatformData.toJson, optField, List.cons_append, List.nil_append,
       List.append_nil, sortJson_obj, sortJsonPairs, sortJson_str, sortJson_arr_strs]
     rw [parsePlatform_sorted_obj]
     · simp [parsePlatform, jLookup, reqStr, optStr, optStrs, parseStrs_map_str, Except.map]
     · simp only [List.map_cons, List.map_nil]
       decide)

theorem parseListItem_sorted_obj (P : List (String × Json))
    (hnd : (P.map Prod.fst).Nodup) :
    parseListItem (.obj (sortByKey Prod.fst P)) = parseListItem (.obj P) := by
  simp only [parseListItem, jLookup_sortByKey P hnd]

/-- Declaration-order round trip for a manifest-list item. -/
theorem parseListItem_toJson (it : ManifestListItem) :
    parseListItem it.toJson = .ok it := by
  obtain ⟨mt, sz, dg, us, ann, p⟩ := it
  cases us <;> cases ann <;>
    simp [ManifestListItem.toJson, parseListItem, optField, jLookup, reqStr, reqNum,
      optStrs, optStrMap, strMapJson, parseStrs_map_str, parseStrMap_map,
      parsePlatform_toJson, Except.map]

/-- Sorted round trip for a manifest-list item. -/
theorem parseListItem_sortJson (it : ManifestListItem) :
    parseListItem (sortJson it.toJson) = .ok it.norm := by
  obtain ⟨mt, sz, dg, us, ann, p⟩ := it
  cases us <;> cases ann <;>
    (simp only [ManifestListItem.toJson, optField, List.cons_append, List.nil_append,
       List.append_nil, sortJson_obj, sortJsonPairs, sortJson_str, sortJson_num,
       sortJson_arr_strs, sortJson_strMapJson]
     rw [parseListItem_sorted_obj]
     · simp [parseListItem, jLookup, reqStr, reqNum, optStrs, optStrMap, strMapJson,
         sortJsonPairs_map_str, sortByKey_map_str_pairs, parseStrs_map_str,
         parseStrMap_map, parsePlatform_sortJson, Except.map,
         ManifestListItem.norm, sortAnn]
     · simp only [List.map_cons, List.map_nil]
       decide)

theorem parseListItems_toJson : ∀ its : List ManifestListItem,
    parseListItems (its.map ManifestListItem.toJson) = .ok its
  | [] => rfl
  | it :: its => by
    simp only [List.map_cons, parseListItems, parseListItem_toJson,
      parseListItems_toJson its]

theorem parseListItems_sortJson : ∀ its : List ManifestListItem,
    parseListItems (sortJsonList (its.map ManifestListItem.toJson))
      = .ok (its.map ManifestListItem.norm)
  | [] => rfl
  | it :: its => by
    simp only [List.map_cons, sortJsonList, parseListItems, parseListItem_sortJson,
      parseListItems_sortJson its]

theorem parseDescriptors_toJson : ∀ ds : List ManifestDescriptor,
    parseDescriptors (ds.map ManifestDescriptor.toJson) = .ok ds
  | [] => rfl
  | d :: ds => by
    simp only [List.map_cons, parseDescriptors, parseDescriptor_toJson,
      parseDescriptors_toJson ds]

theorem parseDescriptors_sortJson : ∀ ds : List ManifestDescriptor,
    parseDescriptors (sortJsonList (ds.map ManifestDescriptor.toJson))
      = .ok (ds.map ManifestDescriptor.norm)
  | [] => rfl
  | d :: ds => by
    simp only [List.map_cons, sortJsonList, parseDescriptors, parseDescriptor_sortJson,
      parseDescriptors_sortJson ds]

theorem parseManifestV2S2_sorted_obj (P : List (String × Json))
    (hnd : (P.map Prod.fst).Nodup) :
    parseManifestV2S2 (.obj (sortByKey Prod.fst P)) = parseManifestV2S2 (.obj P) := by
  simp only [parseManifestV2S2, jLookup_sortByKey P hnd]

theorem parseManifestList_sorted_obj (P : List (String × Json))
    (hnd : (P.map Prod.fst).Nodup) :
    parseManifestList (.obj (sortByKey Prod.fst P)) = parseManifestList (.obj P) := by
  simp only [parseManifestList, jLookup_sortByKey P hnd]

/-- Declaration-order round trip for an image manifest. -/
theorem parseManifestV2S2_toJson (m : ManifestV2S2) (h : m.wf = true) :
    parseManifestV2S2 m.toJson = .ok m := by
  obtain ⟨mt, cfg, ls⟩ := m
  cases mt with
  | none =>
    simp [ManifestV2S2.toJson, parseManifestV2S2, optField, jLookup, reqSchemaVersion2,
      optMediaTypeIn, parseDescriptor_toJson, parseDescriptors_toJson]
  | some s =>
    simp only [ManifestV2S2.wf] at h
    rcases Bool.or_eq_true_iff.mp h with hs | hs <;>
      rw [beq_iff_eq] at hs <;> subst hs <;>
      simp [ManifestV2S2.toJson, parseManifestV2S2, optField, jLookup, reqSchemaVersion2,
        optMediaTypeIn, parseDescriptor_toJson, parseDescriptors_toJson]

/-- Sorted round trip for an image manifest. -/
theorem parseManifestV2S2_sortJson (m : ManifestV2S2) (h : m.wf = true) :
    parseManifestV2S2 (sortJson m.toJson) = .ok m.norm := by
  obtain ⟨mt, cfg, ls⟩ := m
  have step : ∀ mtv : Option Json,
      parseManifestV2S2 (sortJson (Json.obj
        ([("schemaVersion", Json.num 2)] ++ optField "mediaType" mtv
          ++ [("config", cfg.toJson),
              ("layers", Json.arr (ls.map ManifestDescriptor.toJson))])))
      = parseManifestV2S2 (Json.obj
        ([("schemaVersion", Json.num 2)] ++ optField "mediaType" (mtv.map sortJson)
          ++ [("config", sortJson cfg.toJson),
              ("layers", Json.arr (sortJsonList (ls.map ManifestDescriptor.toJson)))])) := by
    intro mtv
    cases mtv <;>
      (simp only [optField, List.cons_append, List.nil_append, List.append_nil,
         sortJson_obj, sortJsonPairs, sortJson_num, sortJson_arr, Option.map]
       rw [parseManifestV2S2_sorted_obj]
       simp only [List.map_cons, List.map_nil]
       decide)
  cases mt with
  | none =>
    rw [show (⟨none, cfg, ls⟩ : ManifestV2S2).toJson
        = Json.obj ([("schemaVersion", Json.num 2)] ++ optField "mediaType" none
          ++ [("config", cfg.toJson),
              ("layers", Json.arr (ls.map ManifestDescriptor.toJson))]) from rfl,
      step none]
    simp [parseManifestV2S2, optField, jLookup, reqSchemaVersion2, optMediaTypeIn,
      parseDescriptor_sortJson, parseDescriptors_sortJson, ManifestV2S2.norm]
  | some s =>
    simp only [ManifestV2S2.wf] at h
    rw [show (⟨some s, cfg, ls⟩ : ManifestV2S2).toJson
        = Json.obj ([("schemaVersion", Json.num 2)]
          ++ optField "mediaType" (some (Json.str s))
          ++ [("config", cfg.toJson),
              ("layers", Json.arr (ls.map ManifestDescriptor.toJson))]) from rfl,
      step (some (Json.str s))]
    rcases Bool.or_eq_true_iff.mp h with hs | hs <;>
      rw [beq_iff_eq] at hs <;> subst hs <;>
      simp [parseManifestV2S2, optField, jLookup, reqSchemaVersion2, optMediaTypeIn,
        Option.map, sortJson_str, parseDescriptor_sortJson, parseDescriptors_sortJson,
        ManifestV2S2.norm]

/-- Declaration-order round trip for a manifest list. -/
theorem parseManifestList_toJson (m : ManifestListV2S2) (h : m.wf = true) :
    parseManifestList m.toJson = .ok m := by
  obtain ⟨mt, ms, ann⟩ := m
  cases mt with
  | none =>
    cases ann <;>
      simp [ManifestListV2S2.toJson, parseManifestList, optField, jLookup,
        reqSchemaVersion2, optMediaTypeIn, optStrMap, strMapJson,
        parseListItems_toJson, parseStrMap_map, Except.map]
  | some s =>
    simp only [ManifestListV2S2.wf] at h
    rcases Bool.or_eq_true_iff.mp h with hs | hs <;>
      rw [beq_iff_eq] at hs <;> subst hs <;> cases ann <;>
      simp [ManifestListV2S2.toJson, parseManifestList, optField, jLookup,
        reqSchemaVersion2, optMediaTypeIn, optStrMap, strMapJson,
        parseListItems_toJson, parseStrMap_map, Except.map]

/-- Sorted round trip for a manifest list. -/
theorem parseManifestList_sortJson (m : ManifestListV2S2) (h : m.wf = true) :
    parseManifestList (sortJson m.toJson) = .ok m.norm := by
  obtain ⟨mt, ms, ann⟩ := m
  have step : ∀ (mtv annv : Option Json),
      parseManifestList (sortJson (Json.obj
        ([("schemaVersion", Json.num 2)] ++ optField "mediaType" mtv
          ++ [("manifests", Json.arr (ms.map ManifestListItem.toJson))]
          ++ optField "annotations" annv)))
      = parseManifestList (Json.obj
        ([("schemaVersion", Json.num 2)] ++ optField "mediaType" (mtv.map sortJson)
          ++ [("manifests", Json.arr (sortJsonList (ms.map ManifestListItem.toJson)))]
          ++ optField "annotations" (annv.map sortJson))) := by
    intro mtv annv
    cases mtv <;> cases annv <;>
      (simp only [optField, List.cons_append, List.nil_append, List.append_nil,
         sortJson_obj, sortJsonPairs, sortJson_num, sortJson_arr, Option.map]
       rw [parseManifestList_sorted_obj]
       simp only [List.map_cons, List.map_nil]
       decide)
  cases mt with
  | none =>
    cases ann with
    | none =>
      rw [show (⟨none, ms, none⟩ : ManifestListV2S2).toJson
          = Json.obj ([("schemaVersion", Json.num 2)] ++ optField "mediaType" none
            ++ [("manifests", Json.arr (ms.map ManifestListItem.toJson))]
            ++ optField "annotations" none) from rfl,
        step none none]
      simp [parseManifestList, optField, jLookup, reqSchemaVersion2, optMediaTypeIn,
        optStrMap, parseListItems_sortJson, ManifestListV2S2.norm, sortAnn]
    | some l =>
      rw [show (⟨none, ms, some l⟩ : ManifestListV2S2).toJson
          = Json.obj ([("schemaVersion", Json.num 2)] ++ optField "mediaType" none
            ++ [("manifests", Json.arr (ms.map ManifestListItem.toJson))]
            ++ optField "annotations" (some (strMapJson l))) from rfl,
        step none (some (strMapJson l))]
      simp [parseManifestList, optField, jLookup, reqSchemaVersion2, optMediaTypeIn,
        optStrMap, strMapJson, sortJson_obj, sortJson_strMapJson, sortJsonPairs_map_str,
        sortByKey_map_str_pairs, parseStrMap_map, parseListItems_sortJson,
        ManifestListV2S2.norm, sortAnn, Option.map, Except.map]
  | some s =>
    simp only [ManifestListV2S2.wf] at h
    have hstep : ∀ annv : Option (List (String × String)),
        parseManifestList (sortJson (ManifestListV2S2.toJson ⟨some s, ms, annv⟩))
          = parseManifestList (Json.obj
            ([("schemaVersion", Json.num 2)]
              ++ optField "mediaType" (some (Json.str s))
              ++ [("manifests", Json.arr (sortJsonList (ms.map ManifestListItem.toJson)))]
              ++ optField "annotations" ((annv.map strMapJson).map sortJson))) := by
      intro annv
      cases annv with
      | none =>
        rw [show (⟨some s, ms, none⟩ : ManifestListV2S2).toJson
            = Json.obj ([("schemaVersion", Json.num 2)]
              ++ optField "mediaType" (some (Json.str s))
              ++ [("manifests", Json.arr (ms.map ManifestListItem.toJson))]
              ++ optField "annotations" none) from rfl,
          step (some (Json.str s)) none]
        simp [Option.map, sortJson_str]
      | some l =>
        rw [show (⟨some s, ms, some l⟩ : ManifestListV2S2).toJson
            = Json.obj ([("schemaVersion", Json.num 2)]
              ++ optField "mediaType" (some (Json.str s))
              ++ [("manifests", Json.arr (ms.map ManifestListItem.toJson))]
              ++ optField "annotations" (some (strMapJson l))) from rfl,
          step (some (Json.str s)) (some (strMapJson l))]
        simp [Option.map, sortJson_str]
    rw [hstep ann]
    rcases Bool.or_eq_true_iff.mp h with hs | hs <;>
      rw [beq_iff_eq] at hs <;> subst hs <;> cases ann <;>
      simp [parseManifestList, optField, jLookup, reqSchemaVersion2, optMediaTypeIn,
        optStrMap, strMapJson, sortJson_obj, sortJson_strMapJson, sortJsonPairs_map_str,
        sortByKey_map_str_pairs, parseStrMap_map, parseListItems_sortJson,
        ManifestListV2S2.norm, sortAnn, Option.map, Except.map]

theorem parseBlobData_map : ∀ bs : List BlobData,
    parseBlobData (bs.map (fun b => Json.obj [("blobSum", Json.str b.blob_sum)])) = .ok bs
  | [] => rfl
  | b :: bs => by
    simp [List.map_cons, parseBlobData, parseBlobData_map bs, jLookup, reqStr]

theorem parseHistory_map : ∀ hs : List HistoryData,
    parseHistory (hs.map (fun h => Json.obj [("v1Compatibility", Json.str h.v1_compatibility)]))
      = .ok hs
  | [] => rfl
  | h :: hs => by
    simp [List.map_cons, parseHistory, parseHistory_map hs, jLookup, reqStr]

/-- Declaration-order round trip for a legacy V1 manifest. -/
theorem parseManifestV1_toJson (m : ManifestV1) :
    parseManifestV1 m.toJson = .ok m := by
  obtain ⟨n, t, a, fl, hi, sv⟩ := m
  simp [ManifestV1.toJson, parseManifestV1, jLookup, reqStr, reqNum,
    parseBlobData_map, parseHistory_map]

/-! ## C5 stage 5: normalization is invisible to the sorted form -/

theorem sortJson_norm_desc (d : ManifestDescriptor) :
    sortJson (ManifestDescriptor.toJson d.norm) = sortJson d.toJson := by
  obtain ⟨mt, sz, dg, us, ann⟩ := d
  cases us <;> cases ann <;>
    simp [ManifestDescriptor.norm, sortAnn, ManifestDescriptor.toJson, optField,
      sortJson_obj, sortJsonPairs, sortJson_str, sortJson_num, sortJson_arr_strs,
      sortJson_strMapJson, sortByKey_idem]

theorem sortJson_norm_item (it : ManifestListItem) :
    sortJson (ManifestListItem.toJson it.norm) = sortJson it.toJson := by
  obtain ⟨mt, sz, dg, us, ann, p⟩ := it
  cases us <;> cases ann <;>
    simp [ManifestListItem.norm, sortAnn, ManifestListItem.toJson, optField,
      sortJson_obj, sortJsonPairs, sortJson_str, sortJson_num, sortJson_arr_strs,
      sortJson_strMapJson, sortByKey_idem]

theorem sortJsonList_norm_descs : ∀ ds : List ManifestDescriptor,
    sortJsonList (ds.map (ManifestDescriptor.toJson ∘ ManifestDescriptor.norm))
      = sortJsonList (ds.map ManifestDescriptor.toJson)
  | [] => rfl
  | d :: ds => by
    simp only [List.map_cons, sortJsonList, Function.comp_apply, sortJson_norm_desc,
      sortJsonList_norm_descs ds]

theorem sortJsonList_norm_items : ∀ ms : List ManifestListItem,
    sortJsonList (ms.map (ManifestListItem.toJson ∘ ManifestListItem.norm))
      = sortJsonList (ms.map ManifestListItem.toJson)
  | [] => rfl
  | it :: ms => by
    simp only [List.map_cons, sortJsonList, Function.comp_apply, sortJson_norm_item,
      sortJsonList_norm_items ms]

theorem sortJson_norm_image (m : ManifestV2S2) :
    sortJson (ManifestV2S2.toJson m.norm) = sortJson m.toJson := by
  obtain ⟨mt, cfg, ls⟩ := m
  cases mt <;>
    simp [ManifestV2S2.norm, ManifestV2S2.toJson, optField, sortJson_obj,
      sortJsonPairs, sortJson_str, sortJson_num, sortJson_arr, sortJson_norm_desc,
      sortJsonList_norm_descs]

theorem sortJson_norm_list (m : ManifestListV2S2) :
    sortJson (ManifestListV2S2.toJson m.norm) = sortJson m.toJson := by
  obtain ⟨mt, ms, ann⟩ := m
  cases mt <;> cases ann <;>
    simp [ManifestListV2S2.norm, sortAnn, ManifestListV2S2.toJson, optField,
      sortJson_obj, sortJsonPairs, sortJson_str, sortJson_num, sortJson_arr,
      sortJson_strMapJson, sortByKey_idem, sortJsonList_norm_items]

/-! ## C5 stage 6: literal evaluations -/

theorem typeMap_oci_index : MANIFEST_TYPE_MAP OCI_INDEX = some MClass.listC := rfl
theorem typeMap_docker_list : MANIFEST_TYPE_MAP DOCKER_LIST = some MClass.listC := rfl
theorem typeMap_oci_manifest : MANIFEST_TYPE_MAP OCI_MANIFEST = some MClass.imageC := rfl
theorem typeMap_docker_v2 : MANIFEST_TYPE_MAP DOCKER_V2 = some MClass.imageC := rfl
theorem typeMap_docker_v1 : MANIFEST_TYPE_MAP DOCKER_V1 = some MClass.v1C := rfl

theorem startsWith_oci_index :
    pyStartsWith OCI_INDEX "application/vnd.docker." = false := rfl
theorem startsWith_docker_list :
    pyStartsWith DOCKER_LIST "application/vnd.docker." = true := rfl
theorem startsWith_oci_manifest :
    pyStartsWith OCI_MANIFEST "application/vnd.docker." = false := rfl
theorem startsWith_docker_v2 :
    pyStartsWith DOCKER_V2 "application/vnd.docker." = true := rfl
theorem startsWith_docker_v1 :
    pyStartsWith DOCKER_V1 "application/vnd.docker." = true := rfl

/-! ## C5 stage 7: assembled statement -/

/-- Parsing the canonical document (with the manifest's own media type
as the `Content-Type` hint) succeeds, returning the manifest itself for
Docker-style media types and its annotation-sorted normalization for
the sorted canonical styles. -/
theorem c5_parse_roundtrip (m : Manifest) (h : m.wf = true) :
    Manifest.parse m.canonicalAst (some m.get_media_type)
      = .ok (if m.dockerStyle then m else m.norm) := by
  cases m with
  | v1 mv =>
    simp [Manifest.get_media_type, Manifest.canonicalAst, Manifest.dockerStyle,
      startsWith_docker_v1, Manifest.parse, typeMap_docker_v1, Manifest.toJson,
      parseManifestV1_toJson]
  | image mi =>
    have hw : mi.wf = true := h
    obtain ⟨mt, cfg, ls⟩ := mi
    cases mt with
    | none =>
      simp [Manifest.get_media_type, Option.getD, Manifest.canonicalAst,
        Manifest.dockerStyle, startsWith_oci_manifest, Manifest.parse,
        typeMap_oci_manifest, Manifest.toJson, Manifest.norm,
        parseManifestV2S2_sortJson _ hw]
    | some s =>
      rcases (by simpa [ManifestV2S2.wf] using hw : s = OCI_MANIFEST ∨ s = DOCKER_V2)
          with hs | hs <;> subst hs
      · simp [Manifest.get_media_type, Option.getD, Manifest.canonicalAst,
          Manifest.dockerStyle, startsWith_oci_manifest, Manifest.parse,
          typeMap_oci_manifest, Manifest.toJson, Manifest.norm,
          parseManifestV2S2_sortJson _ hw]
      · simp [Manifest.get_media_type, Option.getD, Manifest.canonicalAst,
          Manifest.dockerStyle, startsWith_docker_v2, Manifest.parse,
          typeMap_docker_v2, Manifest.toJson, parseManifestV2S2_toJson _ hw]
  | list ml =>
    have hw : ml.wf = true := h
    obtain ⟨mt, ms, ann⟩ := ml
    cases mt with
    | none =>
      simp [Manifest.get_media_type, Option.getD, Manifest.canonicalAst,
        Manifest.dockerStyle, startsWith_oci_index, Manifest.parse,
        typeMap_oci_index, Manifest.toJson, Manifest.norm,
        parseManifestList_sortJson _ hw]
    | some s =>
      rcases (by simpa [ManifestListV2S2.wf] using hw : s = OCI_INDEX ∨ s = DOCKER_LIST)
          with hs | hs <;> subst hs
      · simp [Manifest.get_media_type, Option.getD, Manifest.canonicalAst,
          Manifest.dockerStyle, startsWith_oci_index, Manifest.parse,
          typeMap_oci_index, Manifest.toJson, Manifest.norm,
          parseManifestList_sortJson _ hw]
      · simp [Manifest.get_media_type, Option.getD, Manifest.canonicalAst,
          Manifest.dockerStyle, startsWith_docker_list, Manifest.parse,
          typeMap_docker_list, Manifest.toJson, parseManifestList_toJson _ hw]

/-- What the round trip returns re-serializes to the identical canonical
bytes. -/
theorem c5_canonical_norm (m : Manifest) :
    (if m.dockerStyle then m else m.norm).canonical = m.canonical := by
  cases hds : m.dockerStyle with
  | true => simp [hds]
  | false =>
    have hstyle : m.norm.dockerStyle = m.dockerStyle := by
      cases m <;> rfl
    have hsort : sortJson m.norm.toJson = sortJson m.toJson := by
      cases m with
      | list ml => exact sortJson_norm_list ml
      | image mi => exact sortJson_norm_image mi
      | v1 mv => rfl
    simp only [hds, Bool.false_eq_true, if_false, Manifest.canonical, hstyle, hsort]

theorem c5_digest_norm (m : Manifest) :
    (if m.dockerStyle then m else m.norm).digest = m.digest := by
  unfold Manifest.digest
  rw [c5_canonical_norm]

/-- C5: for every well-formed manifest value of any supported variant,
decoding its canonical document (the JSON value its canonical bytes
parse to, with its media type as hint) succeeds, the decoded manifest's
recomputed canonical form is byte-identical to the original, its digest
is unchanged, and the digest is `sha256:` followed by the hex SHA-256
of the canonical bytes' UTF-8 encoding. -/
theorem c5_canonical_roundtrip_and_digest (m : Manifest) (h : m.wf = true) :
    ∃ m', Manifest.parse m.canonicalAst (some m.get_media_type) = .ok m'
      ∧ m'.canonical = m.canonical
      ∧ m'.digest = m.digest
      ∧ m.digest = "sha256:" ++ bytesToHex (sha256 (utf8Bytes m.canonical)) :=
  ⟨if m.dockerStyle then m else m.norm,
    c5_parse_roundtrip m h, c5_canonical_norm m, c5_digest_norm m, rfl⟩

def mC5 : Manifest :=
  .list ⟨some OCI_INDEX,
    [⟨OCI_MANIFEST, 100, "sha256:child", none, some [("b", "2"), ("a", "1")],
      ⟨"amd64", "linux", some "5.10", none, none, some ["sse4"]⟩⟩],
    some [("z", "9"), ("y", "8")]⟩

/-- C5 witness: a concrete OCI image index with unsorted annotations. -/
theorem c5_witness :
    Manifest.wf mC5 = true
      ∧ (∃ m', Manifest.parse mC5.canonicalAst (some mC5.get_media_type) = .ok m'
          ∧ m'.canonical = mC5.canonical
          ∧ m'.digest = mC5.digest
          ∧ mC5.digest = "sha256:" ++ bytesToHex (sha256 (utf8Bytes mC5.canonical))) :=
  ⟨by decide, c5_canonical_roundtrip_and_digest mC5 (by decide)⟩
